import Mathlib

/-!
Verification development for the GoCharting SDK demo repository.

The TypeScript sources are shallowly embedded in Lean:
JavaScript numbers are idealised as rationals, JavaScript
`x || y` fallback chains on optional fields are modelled by explicit
helpers that treat `undefined`, the empty string and `0` as falsy,
in-place array mutation becomes pure list transformation, and the
nondeterministic environment (clock, generated identifiers, random
draws, network responses) is passed in as explicit oracle arguments.
-/

deriving instance DecidableEq for Except

namespace GoDemo

/-! ## JavaScript-semantics helpers -/

/-- The fallback `a || b` on two optional strings: an absent value and
the empty string are falsy in JavaScript. -/
def jsOrS (a b : Option String) : Option String :=
  match a with
  | some s => if s = "" then b else some s
  | none => b

/-- The fallback `a || d` where `d` is a (truthy) string literal. -/
def jsS (a : Option String) (d : String) : String :=
  match a with
  | some s => if s = "" then d else s
  | none => d

/-- The fallback `a || b` on two optional numbers: an absent value and
`0` are falsy in JavaScript. -/
def jsOrQ (a b : Option ℚ) : Option ℚ :=
  match a with
  | some x => if x = 0 then b else some x
  | none => b

/-- The fallback `a || d` where `d` is a number literal. -/
def jsQ (a : Option ℚ) (d : ℚ) : ℚ :=
  match a with
  | some x => if x = 0 then d else x
  | none => d

/-- The fallback `a || d` on an optional natural number (`rows || 200`):
an absent value and `0` are falsy. -/
def jsN (a : Option ℕ) (d : ℕ) : ℕ :=
  match a with
  | some x => if x = 0 then d else x
  | none => d

/-- Whether the second character list starts with the first. -/
def listStartsWith : List Char → List Char → Bool
  | [], _ => true
  | _ :: _, [] => false
  | p :: ps, c :: cs => p = c && listStartsWith ps cs

/-- Remove the first occurrence of `pat` from a character list (no
change when `pat` does not occur). -/
def removeFirstAux (pat : List Char) : List Char → List Char
  | [] => []
  | c :: cs =>
    if listStartsWith pat (c :: cs) then (c :: cs).drop pat.length
    else c :: removeFirstAux pat cs

/-- JavaScript `s.replace(pat, "")` with a string pattern removes the
first occurrence of `pat` from `s` (string patterns replace only the
first match). -/
def removeFirst (s pat : String) : String :=
  String.mk (removeFirstAux pat.data s.data)

/-- ASCII lower-casing of one character, as performed by
`String.prototype.toLowerCase` on the order-type strings. -/
def jsCharToLower (c : Char) : Char :=
  if 65 ≤ c.toNat ∧ c.toNat ≤ 90 then Char.ofNat (c.toNat + 32) else c

/-- `s.toLowerCase()` on ASCII strings. -/
def jsToLower (s : String) : String :=
  String.mk (s.data.map jsCharToLower)

/-- JavaScript `parseInt` on a string: parses an optional sign followed
by a maximal run of leading decimal digits, returning `none` (NaN) when
no digit is found.  `parseInt("5m") = 5`, `parseInt("1D") = 1`,
`parseInt("D") = NaN`. -/
def jsParseInt (s : String) : Option ℤ :=
  let core : List Char → Option ℕ := fun cs =>
    let digits := cs.takeWhile Char.isDigit
    if digits.isEmpty then none
    else some (digits.foldl (fun n c => 10 * n + (c.toNat - 48)) 0)
  match s.data with
  | '-' :: rest => (core rest).map (fun n => -(n : ℤ))
  | '+' :: rest => (core rest).map (fun n => (n : ℤ))
  | cs => (core cs).map (fun n => (n : ℤ))

/-! ## Broker data model (ChartSDKAdvanced.tsx)

The component keeps its broker data in mutable refs
`currentOrderBook`, `currentTradeBook`, `currentPositions` and
`currentAccountList`; we collect them into one record.  Display-only
`Date` objects (`datetime`, trade ISO timestamps) are modelled by the
epoch-milliseconds clock value from which they are built, and the `info`
empty object is omitted. -/

structure FeeInfo where
  currency : String
  cost : ℚ
  rate : ℚ
deriving Repr, DecidableEq

structure OrderSecurity where
  symbol : String
  exchange : String
  segment : String
  tick_size : ℚ
  lot_size : ℚ
deriving Repr, DecidableEq

structure Order where
  orderId : String
  timeStamp : ℤ
  lastTradeTimestamp : Option ℤ
  status : String
  price : ℚ
  size : ℚ
  productId : String
  remainingSize : ℚ
  orderType : String
  side : String
  cost : Option ℚ
  trades : List String
  fee : FeeInfo
  fillPrice : Option ℚ
  avgFillPrice : Option ℚ
  filledSize : ℚ
  modifiedAt : Option ℤ
  exchange : String
  symbol : String
  takeProfit : Option ℚ
  stopLoss : Option ℚ
  isGC : Bool
  paperTraderKey : Option String
  key : String
  validity : String
  commissions : ℚ
  broker : String
  stopPrice : Option ℚ
  productType : String
  rejReason : Option String
  security : OrderSecurity
  userTag : Option String
  segment : String
  currency : String
deriving Repr, DecidableEq

structure Trade where
  tradeId : String
  orderId : String
  symbol : String
  side : String
  price : ℚ
  size : ℚ
  value : ℚ
  commission : ℚ
  timestamp : ℤ
deriving Repr, DecidableEq

structure Position where
  id : String
  productId : String
  symbol : String
  size : ℚ
  size_currency : ℚ
  price : ℚ
  amount : ℚ
  pnl : ℚ
  unPnl : ℚ
  rPnl : ℚ
  exchange : String
  broker : String
  productType : String
  underlying : String
  security : OrderSecurity
  key : String
  currency : String
  segment : String
  isGC : Bool
deriving Repr, DecidableEq

structure DemoAccount where
  id : String
  name : String
  account_id : String
  accountID : String
  accountType : String
  label : String
  currency : String
  balance : ℚ
  equity : ℚ
  margin : ℚ
  freeMargin : ℚ
deriving Repr, DecidableEq

structure BrokerState where
  orderBook : List Order
  tradeBook : List Trade
  positions : List Position
  accountList : List DemoAccount
deriving Repr, DecidableEq

/-- `OrderDetails`: the optional nested `order` object of an SDK
callback message.  Numeric-or-string fields (`takeProfit`, `stopLoss`)
are modelled by their parsed numeric value. -/
structure OrderDetails where
  orderId : Option String := none
  price : Option ℚ := none
  size : Option ℚ := none
  quantity : Option ℚ := none
  productId : Option String := none
  orderType : Option String := none
  side : Option String := none
  takeProfit : Option ℚ := none
  stopLoss : Option ℚ := none
  stopPrice : Option ℚ := none
  symbol : Option String := none
deriving Repr, DecidableEq

/-- `SecurityData`: the optional `security` object of a callback
message; `tick_size` and `contract_size` are read by
`createPositionAndTrade`. -/
structure SecurityData where
  exchange : Option String := none
  symbol : Option String := none
  full_name : Option String := none
  productType : Option String := none
  segment : Option String := none
  tick_size : Option ℚ := none
  contract_size : Option ℚ := none
deriving Repr, DecidableEq

/-- `OrderInputData`: the message handed to `addOrderToOrderBook`. -/
structure OrderInputData where
  order : Option OrderDetails := none
  security : Option SecurityData := none
  orderId : Option String := none
  price : Option ℚ := none
  size : Option ℚ := none
  quantity : Option ℚ := none
  symbol : Option String := none
  orderType : Option String := none
  type : Option String := none
  side : Option String := none
  takeProfit : Option ℚ := none
  stopLoss : Option ℚ := none
  stopPrice : Option ℚ := none
  ltp : Option ℚ := none
deriving Repr, DecidableEq

/-- The nondeterministic environment of one `addOrderToOrderBook` call:
the clock (`Date.now()`) and the identifiers built from
`Date.now()` and `Math.random().toString(36)`. -/
structure GenEnv where
  now : ℤ
  genOrderId : String
  genTradeId : String
  genPosId : String
  genTpId : String
  genSlId : String
deriving Repr, DecidableEq

/-- `getCurrentLTP`: placeholder last-traded price in the component. -/
def getCurrentLTP : ℚ := 110000

/-- Signed order size as used by `createPositionAndTrade`:
positive for long, negative for short
(`newOrder.side === "sell" ? -newOrder.size : newOrder.size`). -/
def orderSizeWithSign (o : Order) : ℚ :=
  if o.side = "sell" then -o.size else o.size

/-- The threshold `0.0001` under which a netted position is considered
closed. -/
def closeEps : ℚ := 1 / 10000

/-- Netting a fill into one existing position, mirroring the body of
the `existingPositionIndex !== -1` branch of `createPositionAndTrade`:
the result is the updated position (or nothing when the position is
closed and spliced out). -/
def netOne (signedSize execPrice : ℚ) (p : Position) : List Position :=
  let oldSize := p.size
  let oldPrice := p.price
  let isSameDirection :=
    (oldSize > 0 ∧ signedSize > 0) ∨ (oldSize < 0 ∧ signedSize < 0)
  if isSameDirection then
    let totalSize := oldSize + signedSize
    let avgPrice :=
      (|oldPrice * oldSize| + |execPrice * signedSize|) / |totalSize|
    [{ p with
        size := totalSize
        price := avgPrice
        amount := avgPrice * |totalSize|
        size_currency := |totalSize| }]
  else
    let newSize := oldSize + signedSize
    if |newSize| < closeEps then []
    else
      [{ p with
          size := newSize
          amount := p.price * |newSize|
          size_currency := |newSize| }]

/-- Recursive form of `findIndex` plus in-place update/splice on
`currentPositions`: the first position matching the productId and
symbol is replaced by `netOne` of itself; `none` when no position
matches. -/
def netFirst (productId symbol : String) (signedSize execPrice : ℚ) :
    List Position → Option (List Position)
  | [] => none
  | p :: rest =>
    if p.productId = productId ∧ p.symbol = symbol then
      some (netOne signedSize execPrice p ++ rest)
    else
      (netFirst productId symbol signedSize execPrice rest).map
        (fun rest2 => p :: rest2)

/-- The fresh position pushed when no matching position exists. -/
def newPositionOf (newOrder : Order) (security : SecurityData)
    (executionPrice : ℚ) (positionId : String) : Position :=
  { id := positionId
    productId := newOrder.productId
    symbol := newOrder.symbol
    size := orderSizeWithSign newOrder
    size_currency := |newOrder.size|
    price := executionPrice
    amount := executionPrice * newOrder.size
    pnl := 0
    unPnl := 0
    rPnl := 0
    exchange := newOrder.exchange
    broker := "demo"
    productType := "FUTURE"
    underlying := newOrder.symbol
    security :=
      { symbol := newOrder.symbol
        exchange := newOrder.exchange
        segment := "FUTURE"
        tick_size := jsQ security.tick_size (1 / 100)
        lot_size := jsQ security.contract_size 1 }
    key := "demo-" ++ newOrder.productId ++ "-" ++ positionId
    currency := "USDT"
    segment := "FUTURE"
    isGC := true }

/-- The position-list effect of `createPositionAndTrade`: net the fill
into the first matching position, or push a new position. -/
def applyFillToPositions (newOrder : Order) (security : SecurityData)
    (executionPrice : ℚ) (positionId : String) (ps : List Position) :
    List Position :=
  match netFirst newOrder.productId newOrder.symbol
      (orderSizeWithSign newOrder) executionPrice ps with
  | some ps2 => ps2
  | none => ps ++ [newPositionOf newOrder security executionPrice positionId]

/-- The trade recorded by `createPositionAndTrade`. -/
def newTradeOf (newOrder : Order) (executionPrice : ℚ)
    (tradeId : String) (now : ℤ) : Trade :=
  { tradeId := tradeId
    orderId := newOrder.orderId
    symbol := newOrder.symbol
    side := newOrder.side
    price := executionPrice
    size := newOrder.size
    value := executionPrice * newOrder.size
    commission := executionPrice * newOrder.size * (1 / 1000)
    timestamp := now }

/-- The in-place mutation of `newOrder` at the end of
`createPositionAndTrade` (status filled, sizes and fill prices set). -/
def fillOrder (newOrder : Order) (executionPrice : ℚ) : Order :=
  { newOrder with
      status := "filled"
      filledSize := newOrder.size
      remainingSize := 0
      fillPrice := some executionPrice
      avgFillPrice := some executionPrice }

/-- `createPositionAndTrade`: push the trade and net the position.  The
source also mutates `newOrder` in place (see `fillOrder`); because the
mutated object is the one already pushed into the order book by the
caller, the caller below pushes `fillOrder newOrder` instead. -/
def createPositionAndTrade (newOrder : Order) (security : SecurityData)
    (ltp : ℚ) (env : GenEnv) (st : BrokerState) : BrokerState :=
  let executionPrice := ltp
  { st with
      tradeBook :=
        st.tradeBook ++ [newTradeOf newOrder executionPrice env.genTradeId env.now]
      positions :=
        applyFillToPositions newOrder security executionPrice env.genPosId
          st.positions }

/-- `placeTPSLOrder`: the opposite-side protective order pushed for a
take-profit or stop-loss attachment. -/
def placeTPSLOrder (originalOrder : Order) (order : OrderDetails)
    (isTP : Bool) (tpslOrderId : String) (now : ℤ) : Order :=
  let price := (if isTP then order.takeProfit else order.stopLoss).getD 0
  let orderType := if isTP then "limit" else "stop"
  let oppositeSide := if originalOrder.side = "buy" then "sell" else "buy"
  { orderId := tpslOrderId
    timeStamp := now
    lastTradeTimestamp := none
    status := "open"
    price := if isTP then price else 0
    stopPrice := if isTP then none else some price
    size := originalOrder.size
    productId := originalOrder.productId
    remainingSize := originalOrder.size
    orderType := orderType
    side := oppositeSide
    cost := none
    trades := []
    fee := { currency := "USDT", cost := 0, rate := 0 }
    fillPrice := none
    avgFillPrice := none
    filledSize := 0
    modifiedAt := none
    exchange := originalOrder.exchange
    symbol := originalOrder.symbol
    takeProfit := none
    stopLoss := none
    isGC := true
    paperTraderKey := none
    key := "demo-" ++ originalOrder.productId ++ "-" ++ tpslOrderId
    validity := "DAY"
    commissions := 0
    broker := "demo"
    productType := "FUTURE"
    rejReason := none
    security := originalOrder.security
    userTag :=
      some ((if isTP then "takeProfit" else "stopLoss") ++ "_for_" ++
        originalOrder.orderId)
    segment := "FUTURE"
    currency := "USDT" }

/-- `handleMarketOrderWithTPSL`: the list of protective orders to push
after a market fill (`order.takeProfit`/`order.stopLoss` are truthy and
parse to a positive number). -/
def handleMarketOrderWithTPSL (newOrder : Order) (order : OrderDetails)
    (env : GenEnv) : List Order :=
  let hasTP := order.takeProfit.getD 0 > 0
  let hasSL := order.stopLoss.getD 0 > 0
  (if hasTP then [placeTPSLOrder newOrder order true env.genTpId env.now] else [])
    ++
  (if hasSL then [placeTPSLOrder newOrder order false env.genSlId env.now] else [])

/-- The effective order size of an `addOrderToOrderBook` message:
`order.size || order.quantity || orderData.quantity || orderData.size || 0`. -/
def orderSizeOf (order : OrderDetails) (orderData : OrderInputData) : ℚ :=
  jsQ (jsOrQ order.size (jsOrQ order.quantity
    (jsOrQ orderData.quantity orderData.size))) 0

/-- The `Order` record built by `addOrderToOrderBook` before any fill
(status open, nothing filled yet). -/
def newOrderOf (orderData : OrderInputData) (env : GenEnv)
    (currentSymbol : String) : Order :=
  let order := orderData.order.getD {}
  let security := (orderData.security.getD {} : SecurityData)
  let orderId := jsS (jsOrS order.orderId orderData.orderId) env.genOrderId
  let orderSize := orderSizeOf order orderData
  let symbolName :=
    removeFirst
      (jsS (jsOrS security.symbol (jsOrS order.symbol orderData.symbol))
        currentSymbol)
      "BYBIT:FUTURE:"
  let productId :=
    jsS (jsOrS order.productId (jsOrS security.full_name orderData.symbol))
      currentSymbol
  { orderId := orderId
    timeStamp := env.now
    lastTradeTimestamp := none
    status := "open"
    price := jsQ (jsOrQ order.price orderData.price) 0
    size := orderSize
    productId := productId
    remainingSize := orderSize
    orderType :=
      jsS (jsOrS order.orderType (jsOrS orderData.orderType orderData.type))
        "limit"
    side := jsS (jsOrS order.side orderData.side) "buy"
    cost := none
    trades := []
    fee := { currency := "USDT", cost := 0, rate := 0 }
    fillPrice := none
    avgFillPrice := none
    filledSize := 0
    modifiedAt := none
    exchange := jsS security.exchange "BYBIT"
    symbol := symbolName
    takeProfit := jsOrQ order.takeProfit orderData.takeProfit
    stopLoss := jsOrQ order.stopLoss orderData.stopLoss
    isGC := true
    paperTraderKey := none
    key := "demo-" ++ productId ++ "-" ++ orderId
    validity := "DAY"
    commissions := 0
    broker := "demo"
    stopPrice := jsOrQ order.stopPrice orderData.stopPrice
    productType := "FUTURE"
    rejReason := none
    security :=
      { symbol :=
          removeFirst (jsS orderData.symbol currentSymbol) "BYBIT:FUTURE:"
        exchange := "BYBIT"
        segment := "FUTURE"
        tick_size := 1 / 100
        lot_size := 1 / 1000 }
    userTag := none
    segment := "FUTURE"
    currency := "USDT" }

/-- The market-order test of `addOrderToOrderBook`:
`(order.orderType || orderData.orderType || "").toLowerCase() === "market"`.
Note that, unlike the stored `orderType` field, it does not consult
`orderData.type`. -/
def isMarketOrderOf (order : OrderDetails) (orderData : OrderInputData) : Bool :=
  jsToLower (jsS (jsOrS order.orderType orderData.orderType) "") = "market"

/-- `addOrderToOrderBook`: append the new order; market orders are
immediately filled (`createPositionAndTrade`) and may spawn protective
orders (`handleMarketOrderWithTPSL`).  The UI guard on
`chartWrapperRef`, the order-history display list and
`updateChartBrokerData` are view-layer effects outside this model. -/
def addOrderToOrderBook (orderData : OrderInputData) (env : GenEnv)
    (currentSymbol : String) (st : BrokerState) : BrokerState :=
  let order := orderData.order.getD {}
  let security := (orderData.security.getD {} : SecurityData)
  let ltp := jsQ orderData.ltp getCurrentLTP
  let newOrder := newOrderOf orderData env currentSymbol
  if isMarketOrderOf order orderData then
    let st1 := createPositionAndTrade newOrder security ltp env st
    let filled := fillOrder newOrder ltp
    let tpsl := handleMarketOrderWithTPSL filled order env
    { st1 with orderBook := st.orderBook ++ filled :: tpsl }
  else
    { st with orderBook := st.orderBook ++ [newOrder] }

/-- Recursive form of `findIndex` plus `splice(index, 1)` on the order
book: remove the first order with the given id, `none` when absent. -/
def removeFirstOrder (orderId : String) : List Order → Option (List Order)
  | [] => none
  | o :: rest =>
    if o.orderId = orderId then some rest
    else (removeFirstOrder orderId rest).map (fun rest2 => o :: rest2)

/-- `removeOrderFromOrderBook`: splice out the matching order when
found, otherwise leave the state untouched. -/
def removeOrderFromOrderBook (orderId : String) (st : BrokerState) :
    BrokerState :=
  match removeFirstOrder orderId st.orderBook with
  | some book => { st with orderBook := book }
  | none => st

/-- The message handed to `modifyOrderInOrderBook`. -/
structure ModifyData where
  orderId : Option String := none
  order : Option OrderDetails := none
  id : Option String := none
  price : Option ℚ := none
  size : Option ℚ := none
  quantity : Option ℚ := none
  stopLoss : Option ℚ := none
  takeProfit : Option ℚ := none
deriving Repr, DecidableEq

/-- The field updates of `modifyOrderInOrderBook` on the matched order.
The JavaScript edge case where `size`/`quantity` are present but both
falsy (so `newSize` is `undefined` and `remainingSize` becomes NaN) is
modelled as 0. -/
def modifyOne (modifyData : ModifyData) (now : ℤ) (o : Order) : Order :=
  let o1 :=
    match modifyData.price with
    | some p => { o with price := p }
    | none => o
  let o2 :=
    if modifyData.size.isSome ∨ modifyData.quantity.isSome then
      let newSize := jsQ (jsOrQ modifyData.size modifyData.quantity) 0
      { o1 with size := newSize, remainingSize := newSize - o1.filledSize }
    else o1
  let o3 :=
    match modifyData.stopLoss with
    | some v => { o2 with stopLoss := some v }
    | none => o2
  let o4 :=
    match modifyData.takeProfit with
    | some v => { o3 with takeProfit := some v }
    | none => o3
  { o4 with modifiedAt := some now }

/-- Recursive form of `findIndex` plus in-place mutation for
`modifyOrderInOrderBook`. -/
def modifyFirstOrder (orderId : String) (modifyData : ModifyData) (now : ℤ) :
    List Order → Option (List Order)
  | [] => none
  | o :: rest =>
    if o.orderId = orderId then some (modifyOne modifyData now o :: rest)
    else
      (modifyFirstOrder orderId modifyData now rest).map
        (fun rest2 => o :: rest2)

/-- `modifyOrderInOrderBook`: update price/size/stops of the first
order matching `modifyData.orderId || modifyData.order?.orderId ||
modifyData.id`; no-op when absent. -/
def modifyOrderInOrderBook (modifyData : ModifyData) (now : ℤ)
    (st : BrokerState) : BrokerState :=
  let orderId :=
    jsS (jsOrS modifyData.orderId
      (jsOrS (modifyData.order.getD {}).orderId modifyData.id)) ""
  match modifyFirstOrder orderId modifyData now st.orderBook with
  | some book => { st with orderBook := book }
  | none => st

/-- `handleResetBrokerData`: clear the order book, trade book and
positions (the account list ref is not cleared). -/
def handleResetBrokerData (st : BrokerState) : BrokerState :=
  { st with orderBook := [], tradeBook := [], positions := [] }

/-- One trading operation on the broker state, as dispatched by
`handleTradingEvent` and the UI buttons. -/
inductive BrokerOp where
  | place (orderData : OrderInputData) (env : GenEnv) (currentSymbol : String)
  | cancel (orderId : String)
  | modify (modifyData : ModifyData) (now : ℤ)
  | reset
deriving Repr

/-- Interpretation of one trading operation. -/
def stepBroker (st : BrokerState) : BrokerOp → BrokerState
  | .place orderData env currentSymbol =>
      addOrderToOrderBook orderData env currentSymbol st
  | .cancel orderId => removeOrderFromOrderBook orderId st
  | .modify modifyData now => modifyOrderInOrderBook modifyData now st
  | .reset => handleResetBrokerData st

/-- Running a sequence of trading operations. -/
def runBroker (st : BrokerState) (ops : List BrokerOp) : BrokerState :=
  ops.foldl stepBroker st

/-! ## Datafeed model (chart-datafeed.ts)

`chart-datafeed.ts` contains two `createChartDatafeed` implementations:
an untyped original and a typed rewrite.  Definitions without a suffix
embed the untyped version; definitions suffixed `Typed` embed the typed
rewrite where the two are compared.  Network requests, the clock and
`Math.random()` enter as oracle arguments. -/

/-- A raw bar as consumed by `convertToUDFFormat`.  The `time` field of
a bar may be a number (seconds) or a date string; a date string is
modelled by the epoch milliseconds it parses to, as is the alternative
`date` field. -/
inductive TimeField where
  | num (q : ℚ)
  | str (epochMs : ℤ)
deriving Repr, DecidableEq

structure RawBar where
  time : Option TimeField := none
  date : Option ℤ := none
  opn : ℚ := 0
  high : ℚ := 0
  low : ℚ := 0
  close : ℚ := 0
  volume : ℚ := 0
deriving Repr, DecidableEq

/-- JavaScript truthiness of `bar.time`: absent and the number `0` are
falsy (a parsed date string is assumed nonempty, hence truthy). -/
def truthyTime : Option TimeField → Bool
  | none => false
  | some (.num q) => q != 0
  | some (.str _) => true

/-- The per-bar branch of `convertToUDFFormat`: the timestamp pushed for
a bar, or `none` when the bar has neither `time` nor `date` and is
skipped with a warning.  `Math.floor(ms / 1000)` is floor division. -/
def barTimestamp (bar : RawBar) : Option ℚ :=
  if truthyTime bar.time then
    match bar.time with
    | some (.num q) => some q
    | some (.str ms) => some ((ms.fdiv 1000 : ℤ) : ℚ)
    | none => none
  else
    match bar.date with
    | some ms => some ((ms.fdiv 1000 : ℤ) : ℚ)
    | none => none

/-- The UDF-format response of `getBars`: `{s: "no_data", nextTime:
null}` or `{s: "ok"}` with the six parallel arrays. -/
inductive UDFResult where
  | no_data (nextTime : Option ℤ)
  | ok (t o h l c v : List ℚ)
deriving Repr, DecidableEq

/-- `convertToUDFFormat` (untyped version): empty input yields
`no_data`; otherwise each bar with a usable timestamp pushes one entry
onto each of the six arrays (the `forEach` with an early `return` for
bars lacking `time`/`date` is the `filterMap`). -/
def convertToUDFFormat (rawBars : List RawBar) : UDFResult :=
  if rawBars.isEmpty then .no_data none
  else
    let rows := rawBars.filterMap
      (fun bar => (barTimestamp bar).map (fun ts => (ts, bar)))
    .ok (rows.map (fun r => r.1))
      (rows.map (fun r => r.2.opn))
      (rows.map (fun r => r.2.high))
      (rows.map (fun r => r.2.low))
      (rows.map (fun r => r.2.close))
      (rows.map (fun r => r.2.volume))

/-- The `resolution` argument of the datafeed contract: a string such
as `"5m"`, an object with `scale` and `units` fields, or anything else
(modelled by `invalid`; `getBybitBars` throws on it and
`generateDemoData` treats it as daily). -/
inductive ResolutionVal where
  | str (s : String)
  | obj (scale : ℚ) (units : String)
  | invalid
deriving Repr, DecidableEq

structure ResolutionInfo where
  scale : ℚ
  units : String
  label : String
deriving Repr, DecidableEq

/-- `convertIntervalToResolution` (untyped version): the interval-string
lookup table with a `1D` default for unknown strings. -/
def convertIntervalToResolution (intervalString : String) : ResolutionInfo :=
  if intervalString = "1m" then ⟨1, "minutes", "1"⟩
  else if intervalString = "5m" then ⟨5, "minutes", "5"⟩
  else if intervalString = "15m" then ⟨15, "minutes", "15"⟩
  else if intervalString = "30m" then ⟨30, "minutes", "30"⟩
  else if intervalString = "1h" then ⟨1, "hours", "60"⟩
  else if intervalString = "4h" then ⟨4, "hours", "240"⟩
  else if intervalString = "1D" then ⟨1, "days", "D"⟩
  else if intervalString = "1W" then ⟨1, "weeks", "W"⟩
  else if intervalString = "1M" then ⟨1, "months", "M"⟩
  else ⟨1, "days", "D"⟩

/-- `Number.prototype.toString()` for the integer scales that reach it
(non-integers would print with a decimal point in JavaScript; no call
site produces one). -/
def jsNumToString (q : ℚ) : String :=
  if q.den = 1 then toString q.num else toString q

/-- `deriveIntervalLabel` (untyped version) at its declared types:
minutes print the scale, hours are converted to minutes, and days,
weeks and months get letter suffixes. -/
def deriveIntervalLabel (scale : ℚ) (units : String) : String :=
  if units = "minutes" then jsNumToString scale
  else if units = "hours" then jsNumToString (scale * 60)
  else if units = "days" then
    if scale = 1 then "D" else jsNumToString scale ++ "D"
  else if units = "weeks" then
    if scale = 1 then "W" else jsNumToString (scale * 7) ++ "W"
  else if units = "months" then
    if scale = 1 then "M" else jsNumToString (scale * 30) ++ "M"
  else "D"

/-- A dynamically-typed JavaScript value (number or string), needed
because `getBybitBars` calls `deriveIntervalLabel` with its two
arguments swapped, passing a string where a number is declared and vice
versa. -/
inductive JSVal where
  | num (q : ℚ)
  | str (s : String)
deriving Repr, DecidableEq

def jsValToString : JSVal → String
  | .num q => jsNumToString q
  | .str s => s

/-- Numeric coercion of a `JSVal`.  A string would coerce to NaN in the
arithmetic of `deriveIntervalLabel`; the branches performing arithmetic
are unreachable at the one dynamic call site (where `units` is a
number, so every `case` misses), so NaN is not modelled. -/
def jsValToNum : JSVal → ℚ
  | .num q => q
  | .str _ => 0

/-- `deriveIntervalLabel` under dynamic typing, as executed when
`getBybitBars` calls it with swapped arguments: the `switch` compares
`units` against string literals with strict equality, so a numeric
`units` falls through to the default `"D"`. -/
def deriveIntervalLabelDyn (scale units : JSVal) : String :=
  if units = .str "minutes" then jsValToString scale
  else if units = .str "hours" then jsNumToString (jsValToNum scale * 60)
  else if units = .str "days" then
    if scale = .num 1 then "D" else jsValToString scale ++ "D"
  else if units = .str "weeks" then
    if scale = .num 1 then "W" else jsNumToString (jsValToNum scale * 7) ++ "W"
  else if units = .str "months" then
    if scale = .num 1 then "M" else jsNumToString (jsValToNum scale * 30) ++ "M"
  else "D"

/-- The `interval` query value computed at the top of `getBybitBars`
(untyped version).  For a string resolution the label comes from the
lookup table; for an object resolution the source assigns
`scale = resolution.units` and `units = resolution.scale` (swapped) and
then calls `deriveIntervalLabel(scale, units)`; anything else throws
`Invalid resolution format`. -/
def bybitIntervalOf (resolution : ResolutionVal) : Except Unit String :=
  match resolution with
  | .str s => .ok (convertIntervalToResolution s).label
  | .obj scaleField unitsField =>
      .ok (deriveIntervalLabelDyn (JSVal.str unitsField) (JSVal.num scaleField))
  | .invalid => .error ()

/-- `periodParams`: `from`/`to` are `Date`s, modelled by their
`getTime()` epoch milliseconds. -/
structure PeriodParams where
  fromMs : ℤ
  toMs : ℤ
  firstDataRequest : Bool := false
  rows : Option ℕ := none
deriving Repr, DecidableEq

/-- The fields of `symbolInfo` read by the datafeed. -/
structure DatafeedSymbolInfo where
  exchange : String
  symbol : Option String := none
  ticker : Option String := none
  name : Option String := none
deriving Repr, DecidableEq

/-- A JavaScript template-literal interpolation of a possibly-undefined
string: interpolating `undefined` produces the text `"undefined"`. -/
def jsTemplate (a : Option String) : String := a.getD "undefined"

/-- The Bybit kline request URL built by `getBybitBars` (untyped
version); `.error` when the resolution format is invalid.  The symbol
falls back through `symbolInfo.symbol || symbolInfo.ticker ||
symbolInfo.name`. -/
def bybitRequestUrl (symbolInfo : DatafeedSymbolInfo)
    (resolution : ResolutionVal) (periodParams : PeriodParams)
    (nowMs : ℤ) : Except Unit String :=
  match bybitIntervalOf resolution with
  | .error e => .error e
  | .ok interval =>
    let bybitSymbol := jsTemplate
      (jsOrS symbolInfo.symbol (jsOrS symbolInfo.ticker symbolInfo.name))
    let limit := jsN periodParams.rows 200
    if periodParams.firstDataRequest then
      .ok ("https://api.bybit.com/v5/market/kline?symbol=" ++ bybitSymbol ++
        "&interval=" ++ interval ++ "&end=" ++ toString nowMs ++
        "&limit=" ++ toString limit)
    else
      .ok ("https://api.bybit.com/v5/market/kline?symbol=" ++ bybitSymbol ++
        "&interval=" ++ interval ++ "&start=" ++ toString periodParams.fromMs ++
        "&end=" ++ toString periodParams.toMs ++ "&limit=" ++ toString limit)

/-- The bar interval in seconds chosen by `generateDemoData`: default
one day, overridden to `parseInt(resolution) * 60` when the resolution
is a string whose `parseInt` is not NaN (so `"5"` gives 300, but also
`"1D"` gives 60 because `parseInt("1D") = 1`). -/
def demoInterval (resolution : ResolutionVal) : ℚ :=
  match resolution with
  | .str s =>
    match jsParseInt s with
    | some n => (n : ℚ) * 60
    | none => 86400
  | _ => 86400

/-- The `while (currentTime < endTime)` loop of `generateDemoData`,
with explicit fuel and an index into the stream of `Math.random()`
draws (four draws per iteration: change, high wick, low wick, volume).
The fuel passed by `generateDemoData` is exact when the interval is
positive; when the interval is not positive the JavaScript loop would
not terminate, and the model returns what it produced. -/
def demoLoop (rand : ℕ → ℚ) (endTime interval : ℚ) :
    ℕ → ℚ → ℚ → ℕ → List RawBar
  | 0, _, _, _ => []
  | fuel + 1, basePrice, currentTime, k =>
    if currentTime < endTime then
      let randomChange := (rand k - 1 / 2) * 1000
      let opn := basePrice
      let close := basePrice + randomChange
      let high := max opn close + rand (k + 1) * 500
      let low := min opn close - rand (k + 2) * 500
      let volume := rand (k + 3) * 1000000
      { time := some (.num currentTime), date := none,
        opn := opn, high := high, low := low, close := close,
        volume := volume } ::
        demoLoop rand endTime interval fuel close (currentTime + interval)
          (k + 4)
    else []

/-- `generateDemoData` (untyped version): a synthetic random walk from
`from.getTime() / 1000` to `to.getTime() / 1000`, starting at price
50000. -/
def generateDemoData (fromMs toMs : ℤ) (resolution : ResolutionVal)
    (rand : ℕ → ℚ) : List RawBar :=
  let startTime : ℚ := (fromMs : ℚ) / 1000
  let endTime : ℚ := (toMs : ℚ) / 1000
  let interval := demoInterval resolution
  let fuel := (Int.ceil ((endTime - startTime) / interval)).toNat
  demoLoop rand endTime interval fuel 50000 startTime 0

/-- `getBars` (untyped version): BYBIT symbols use the Bybit REST
outcome (oracle `bybitOutcome`, `.error` when any step of that path
throws); other symbols, and any Bybit failure caught by the
`try`/`catch`, fall back to synthetic demo data; either way the raw
bars are converted to UDF format. -/
def getBars (symbolInfo : DatafeedSymbolInfo) (resolution : ResolutionVal)
    (periodParams : PeriodParams) (bybitOutcome : Except Unit (List RawBar))
    (rand : ℕ → ℚ) : UDFResult :=
  if symbolInfo.exchange = "BYBIT" then
    match bybitOutcome with
    | .ok rawBars => convertToUDFFormat rawBars
    | .error _ =>
      convertToUDFFormat
        (generateDemoData periodParams.fromMs periodParams.toMs resolution rand)
  else
    convertToUDFFormat
      (generateDemoData periodParams.fromMs periodParams.toMs resolution rand)

/-! ### Symbol-resolution caching and streaming state -/

/-- The observable outcome of one `resolveSymbol` call: `onResolve`
invoked with a symbol info, or `onError` invoked. -/
inductive ResolveOutcome (α : Type) where
  | resolved (info : α)
  | failed
deriving Repr, DecidableEq

/-- Result of one `resolveSymbol` call: the callback outcome, the
symbol cache afterwards, and whether the remote API was contacted. -/
structure ResolveResult (α : Type) where
  outcome : ResolveOutcome α
  cache : List (String × α)
  apiContacted : Bool
deriving Repr, DecidableEq

/-- `resolveSymbol` (untyped version) over an abstract symbol-info type
`α`: serve from the cache when possible; otherwise try the GoCharting
API (oracle `apiOutcome`), falling back to local resolution, caching
and resolving on success; `onError` when even local resolution throws.
The `Map` cache is modelled as an association list (insertion only
happens on a miss, so consing is `Map.set`). -/
def resolveSymbol {α : Type} (symbolCache : List (String × α))
    (symbolName : String) (apiOutcome : Except Unit α)
    (localResolve : String → Except Unit α) : ResolveResult α :=
  match symbolCache.lookup symbolName with
  | some cachedSymbolInfo => ⟨.resolved cachedSymbolInfo, symbolCache, false⟩
  | none =>
    match apiOutcome with
    | .ok symbolInfo =>
      ⟨.resolved symbolInfo, (symbolName, symbolInfo) :: symbolCache, true⟩
    | .error _ =>
      match localResolve symbolName with
      | .ok symbolInfo =>
        ⟨.resolved symbolInfo, (symbolName, symbolInfo) :: symbolCache, true⟩
      | .error _ => ⟨.failed, symbolCache, true⟩

/-- The mutable state of one datafeed object: the symbol cache and the
`streamingIntervals` record mapping subscriber UIDs to `setInterval`
handles (a JavaScript object keyed by strings, modelled as a function
to `Option`). -/
structure DatafeedState (α : Type) where
  symbolCache : List (String × α)
  streamingIntervals : String → Option ℕ

/-- `destroy` (untyped version): clear every streaming interval and the
symbol cache (the `clearInterval` calls and the search-abort are
environment effects with no state beyond the cleared fields). -/
def destroyDatafeed {α : Type} (_st : DatafeedState α) : DatafeedState α :=
  { symbolCache := [], streamingIntervals := fun _ => none }

/-- `startDemoStreaming` (untyped version): clear any existing interval
for the subscriber, then store the fresh `setInterval` handle under its
UID. -/
def startDemoStreaming {α : Type} (subscriberUID : String) (handle : ℕ)
    (st : DatafeedState α) : DatafeedState α :=
  { st with
      streamingIntervals := fun k =>
        if k = subscriberUID then some handle else st.streamingIntervals k }

/-- `subscribeBars` (untyped version) delegates to
`startDemoStreaming`. -/
def subscribeBars {α : Type} (subscriberUID : String) (handle : ℕ)
    (st : DatafeedState α) : DatafeedState α :=
  startDemoStreaming subscriberUID handle st

/-- `unsubscribeBars` (untyped version): when
`streamingIntervals[subscriberUID]` is truthy (present and, since
handles are JavaScript numbers, nonzero — browsers return positive
interval ids), clear it and delete the key; otherwise do nothing. -/
def unsubscribeBars {α : Type} (subscriberUID : String)
    (st : DatafeedState α) : DatafeedState α :=
  if (st.streamingIntervals subscriberUID).getD 0 ≠ 0 then
    { st with
        streamingIntervals := fun k =>
          if k = subscriberUID then none else st.streamingIntervals k }
  else st

/-! ### The typed rewrite (second `createChartDatafeed`)

Copies of the operations above as written in the typed version, for the
behavioural comparison of the two implementations.  Apart from type
annotations the bodies coincide, except for the Bybit symbol fallback
in `getBybitBars`. -/

/-- `convertToUDFFormat` of the typed version (body identical to the
untyped one). -/
def convertToUDFFormatTyped (rawBars : List RawBar) : UDFResult :=
  if rawBars.isEmpty then .no_data none
  else
    let rows := rawBars.filterMap
      (fun bar => (barTimestamp bar).map (fun ts => (ts, bar)))
    .ok (rows.map (fun r => r.1))
      (rows.map (fun r => r.2.opn))
      (rows.map (fun r => r.2.high))
      (rows.map (fun r => r.2.low))
      (rows.map (fun r => r.2.close))
      (rows.map (fun r => r.2.volume))

/-- `convertIntervalToResolution` of the typed version (body identical
to the untyped one). -/
def convertIntervalToResolutionTyped (intervalString : String) :
    ResolutionInfo :=
  if intervalString = "1m" then ⟨1, "minutes", "1"⟩
  else if intervalString = "5m" then ⟨5, "minutes", "5"⟩
  else if intervalString = "15m" then ⟨15, "minutes", "15"⟩
  else if intervalString = "30m" then ⟨30, "minutes", "30"⟩
  else if intervalString = "1h" then ⟨1, "hours", "60"⟩
  else if intervalString = "4h" then ⟨4, "hours", "240"⟩
  else if intervalString = "1D" then ⟨1, "days", "D"⟩
  else if intervalString = "1W" then ⟨1, "weeks", "W"⟩
  else if intervalString = "1M" then ⟨1, "months", "M"⟩
  else ⟨1, "days", "D"⟩

/-- `deriveIntervalLabel` of the typed version (body identical to the
untyped one). -/
def deriveIntervalLabelTyped (scale : ℚ) (units : String) : String :=
  if units = "minutes" then jsNumToString scale
  else if units = "hours" then jsNumToString (scale * 60)
  else if units = "days" then
    if scale = 1 then "D" else jsNumToString scale ++ "D"
  else if units = "weeks" then
    if scale = 1 then "W" else jsNumToString (scale * 7) ++ "W"
  else if units = "months" then
    if scale = 1 then "M" else jsNumToString (scale * 30) ++ "M"
  else "D"

/-- The `interval` computation of the typed `getBybitBars`: the same
swapped assignments, written with `as unknown as` casts
(`scale = resolution.units as unknown as number`), so the dynamic
behaviour is the same as the untyped version. -/
def bybitIntervalOfTyped (resolution : ResolutionVal) : Except Unit String :=
  match resolution with
  | .str s => .ok (convertIntervalToResolutionTyped s).label
  | .obj scaleField unitsField =>
      .ok (deriveIntervalLabelDyn (JSVal.str unitsField) (JSVal.num scaleField))
  | .invalid => .error ()

/-- The Bybit kline request URL of the typed `getBybitBars`.  The only
behavioural difference from the untyped version: the symbol fallback is
`symbolInfo.symbol || symbolInfo.ticker || ""` instead of
`... || symbolInfo.name`. -/
def bybitRequestUrlTyped (symbolInfo : DatafeedSymbolInfo)
    (resolution : ResolutionVal) (periodParams : PeriodParams)
    (nowMs : ℤ) : Except Unit String :=
  match bybitIntervalOfTyped resolution with
  | .error e => .error e
  | .ok interval =>
    let bybitSymbol := jsS (jsOrS symbolInfo.symbol symbolInfo.ticker) ""
    let limit := jsN periodParams.rows 200
    if periodParams.firstDataRequest then
      .ok ("https://api.bybit.com/v5/market/kline?symbol=" ++ bybitSymbol ++
        "&interval=" ++ interval ++ "&end=" ++ toString nowMs ++
        "&limit=" ++ toString limit)
    else
      .ok ("https://api.bybit.com/v5/market/kline?symbol=" ++ bybitSymbol ++
        "&interval=" ++ interval ++ "&start=" ++ toString periodParams.fromMs ++
        "&end=" ++ toString periodParams.toMs ++ "&limit=" ++ toString limit)

/-- The demo-data loop of the typed version (body identical to the
untyped one). -/
def demoLoopTyped (rand : ℕ → ℚ) (endTime interval : ℚ) :
    ℕ → ℚ → ℚ → ℕ → List RawBar
  | 0, _, _, _ => []
  | fuel + 1, basePrice, currentTime, k =>
    if currentTime < endTime then
      let randomChange := (rand k - 1 / 2) * 1000
      let opn := basePrice
      let close := basePrice + randomChange
      let high := max opn close + rand (k + 1) * 500
      let low := min opn close - rand (k + 2) * 500
      let volume := rand (k + 3) * 1000000
      { time := some (.num currentTime), date := none,
        opn := opn, high := high, low := low, close := close,
        volume := volume } ::
        demoLoopTyped rand endTime interval fuel close (currentTime + interval)
          (k + 4)
    else []

/-- `generateDemoData` of the typed version (body identical to the
untyped one). -/
def generateDemoDataTyped (fromMs toMs : ℤ) (resolution : ResolutionVal)
    (rand : ℕ → ℚ) : List RawBar :=
  let startTime : ℚ := (fromMs : ℚ) / 1000
  let endTime : ℚ := (toMs : ℚ) / 1000
  let interval := demoInterval resolution
  let fuel := (Int.ceil ((endTime - startTime) / interval)).toNat
  demoLoopTyped rand endTime interval fuel 50000 startTime 0

/-- `getBars` of the typed version (body identical to the untyped
one). -/
def getBarsTyped (symbolInfo : DatafeedSymbolInfo)
    (resolution : ResolutionVal) (periodParams : PeriodParams)
    (bybitOutcome : Except Unit (List RawBar)) (rand : ℕ → ℚ) : UDFResult :=
  if symbolInfo.exchange = "BYBIT" then
    match bybitOutcome with
    | .ok rawBars => convertToUDFFormatTyped rawBars
    | .error _ =>
      convertToUDFFormatTyped
        (generateDemoDataTyped periodParams.fromMs periodParams.toMs resolution
          rand)
  else
    convertToUDFFormatTyped
      (generateDemoDataTyped periodParams.fromMs periodParams.toMs resolution
        rand)

/-- `destroy` of the typed version (body identical to the untyped
one). -/
def destroyDatafeedTyped {α : Type} (_st : DatafeedState α) :
    DatafeedState α :=
  { symbolCache := [], streamingIntervals := fun _ => none }

/-- `startDemoStreaming` of the typed version (body identical to the
untyped one). -/
def startDemoStreamingTyped {α : Type} (subscriberUID : String)
    (handle : ℕ) (st : DatafeedState α) : DatafeedState α :=
  { st with
      streamingIntervals := fun k =>
        if k = subscriberUID then some handle else st.streamingIntervals k }

/-- `subscribeBars` of the typed version. -/
def subscribeBarsTyped {α : Type} (subscriberUID : String) (handle : ℕ)
    (st : DatafeedState α) : DatafeedState α :=
  startDemoStreamingTyped subscriberUID handle st

/-- `unsubscribeBars` of the typed version (body identical to the
untyped one). -/
def unsubscribeBarsTyped {α : Type} (subscriberUID : String)
    (st : DatafeedState α) : DatafeedState α :=
  if (st.streamingIntervals subscriberUID).getD 0 ≠ 0 then
    { st with
        streamingIntervals := fun k =>
          if k = subscriberUID then none else st.streamingIntervals k }
  else st

/-! ## Sample data for concrete evaluations -/

/-- The timestamp of a demo bar (every bar built by `generateDemoData`
carries a numeric `time`). -/
def demoBarTime (bar : RawBar) : ℚ :=
  match bar.time with
  | some (.num q) => q
  | _ => 0

/-- A fixed id/clock environment for concrete runs. -/
def sampleEnv : GenEnv :=
  { now := 0, genOrderId := "OID", genTradeId := "TID", genPosId := "PID",
    genTpId := "TPID", genSlId := "SLID" }

def emptyBroker : BrokerState :=
  { orderBook := [], tradeBook := [], positions := [], accountList := [] }

def orderA : Order :=
  { newOrderOf {} sampleEnv "BYBIT:FUTURE:BTCUSDT" with orderId := "A" }

def orderB : Order :=
  { newOrderOf {} sampleEnv "BYBIT:FUTURE:BTCUSDT" with orderId := "B" }

/-- A market buy of 0.00003 BTCUSDT at LTP 100. -/
def c1Data : OrderInputData :=
  { quantity := some (3 / 100000), symbol := some "BTCUSDT",
    orderType := some "market", ltp := some 100 }

def c1Order : Order := newOrderOf c1Data sampleEnv "BTCUSDT"

/-- An existing long position of 0.00003 BTCUSDT at price 100. -/
def c1Pos : Position :=
  { id := "P1", productId := "BTCUSDT", symbol := "BTCUSDT",
    size := 3 / 100000, size_currency := 3 / 100000, price := 100,
    amount := 3 / 1000, pnl := 0, unPnl := 0, rPnl := 0,
    exchange := "BYBIT", broker := "demo", productType := "FUTURE",
    underlying := "BTCUSDT",
    security :=
      { symbol := "BTCUSDT", exchange := "BYBIT", segment := "FUTURE",
        tick_size := 1 / 100, lot_size := 1 },
    key := "demo-BTCUSDT-P1", currency := "USDT", segment := "FUTURE",
    isGC := true }

/-- A market buy of 1 BTCUSDT at LTP 110. -/
def c1wData : OrderInputData :=
  { quantity := some 1, symbol := some "BTCUSDT",
    orderType := some "market", ltp := some 110 }

def c1wOrder : Order := newOrderOf c1wData sampleEnv "BTCUSDT"

/-- An existing long position of 1 BTCUSDT at price 100. -/
def c1wPos : Position :=
  { c1Pos with size := 1, size_currency := 1, price := 100, amount := 100 }

/-- A message whose order type reaches the stored order only through the
`orderData.type` fallback. -/
def c3Data : OrderInputData := { type := some "market", quantity := some 2 }

def c3Order : Order := newOrderOf c3Data sampleEnv "BYBIT:FUTURE:BTCUSDT"

/-- A plain market order message. -/
def c3wData : OrderInputData :=
  { orderType := some "market", quantity := some 3, ltp := some 100 }

/-- A constant stream of `Math.random()` draws. -/
def randHalf : ℕ → ℚ := fun _ => 1 / 2

/-- A BYBIT symbol info carrying only the legacy `name` field. -/
def c7SymbolInfo : DatafeedSymbolInfo :=
  { exchange := "BYBIT", name := some "BTCUSDT" }

def c7Period : PeriodParams := { fromMs := 0, toMs := 60000 }

def c7wSymbolInfo : DatafeedSymbolInfo :=
  { exchange := "BYBIT", symbol := some "BTCUSDT" }

/-- A market buy of 0.00003 (below the 0.0001 netting threshold). -/
def c8Data : OrderInputData :=
  { size := some (3 / 100000), symbol := some "BTCUSDT",
    orderType := some "market", ltp := some 100 }

/-- A market buy of 1. -/
def c8wData : OrderInputData :=
  { quantity := some 1, orderType := some "market", ltp := some 100 }

def c2SymbolInfo : DatafeedSymbolInfo := { exchange := "NASDAQ" }

def emptyFeed : DatafeedState ℕ :=
  { symbolCache := [], streamingIntervals := fun _ => none }

/-! ## Well-formedness of UDF responses -/

/-- The shape asserted for every `getBars` result: `no_data` carries a
null `nextTime`, and an `ok` response carries six arrays of equal
length. -/
def udfWellFormed : UDFResult → Prop
  | .no_data nextTime => nextTime = none
  | .ok t o h l c v =>
    o.length = t.length ∧ h.length = t.length ∧ l.length = t.length ∧
      c.length = t.length ∧ v.length = t.length

/-! ## Position-book invariant -/

/-- The position-book invariant: amount is price times absolute size,
`size_currency` is the absolute size, the absolute size stays at or
above the 0.0001 netting threshold, and the PnL fields stay zero. -/
def positionOk (p : Position) : Prop :=
  p.amount = p.price * |p.size| ∧ p.size_currency = |p.size| ∧
    closeEps ≤ |p.size| ∧ p.pnl = 0 ∧ p.unPnl = 0 ∧ p.rPnl = 0

instance (p : Position) : Decidable (positionOk p) := by
  unfold positionOk; infer_instance

/-- Precondition on one trading operation: an order placement carries
an effective size of at least the 0.0001 threshold. -/
def opSizeOk : BrokerOp → Prop
  | .place orderData _ _ =>
      closeEps ≤ orderSizeOf (orderData.order.getD {}) orderData
  | _ => True

instance (op : BrokerOp) : Decidable (opSizeOk op) := by
  unfold opSizeOk; cases op <;> infer_instance

/-! # Theorems -/

/-! ## Helper lemmas -/

theorem removeFirstOrder_first_match (oid : String) (o : Order)
    (pre post : List Order) (ho : o.orderId = oid)
    (hpre : ∀ x ∈ pre, x.orderId ≠ oid) :
    removeFirstOrder oid (pre ++ o :: post) = some (pre ++ post) := by
  induction pre with
  | nil => simp [removeFirstOrder, ho]
  | cons a l ih =>
    have ha : a.orderId ≠ oid := hpre a (by simp)
    have ih2 := ih (fun x hx => hpre x (by simp [hx]))
    simp [removeFirstOrder, ha, ih2]

theorem removeFirstOrder_no_match (oid : String) (l : List Order)
    (h : ∀ x ∈ l, x.orderId ≠ oid) :
    removeFirstOrder oid l = none := by
  induction l with
  | nil => rfl
  | cons a t ih =>
    have ha : a.orderId ≠ oid := h a (by simp)
    have ih2 := ih (fun x hx => h x (by simp [hx]))
    simp [removeFirstOrder, ha, ih2]

/-! ## C5: order cancellation -/

/-- C5.  Order cancellation is exact and atomic: `removeOrderFromOrderBook`
removes exactly the first (hence, when ids are unique, the one) order
whose `orderId` matches, leaving every other order, the trade book, the
positions list and the account list unchanged; when no order matches,
the whole broker state is unchanged. -/
theorem cancel_removes_exactly_the_matching_order (st : BrokerState)
    (oid : String) :
    (removeOrderFromOrderBook oid st).tradeBook = st.tradeBook ∧
    (removeOrderFromOrderBook oid st).positions = st.positions ∧
    (removeOrderFromOrderBook oid st).accountList = st.accountList ∧
    (∀ pre o post, st.orderBook = pre ++ o :: post → o.orderId = oid →
      (∀ x ∈ pre, x.orderId ≠ oid) →
      removeOrderFromOrderBook oid st = { st with orderBook := pre ++ post }) ∧
    ((∀ x ∈ st.orderBook, x.orderId ≠ oid) →
      removeOrderFromOrderBook oid st = st) := by
  refine ⟨?_, ?_, ?_, ?_, ?_⟩
  · unfold removeOrderFromOrderBook
    cases h : removeFirstOrder oid st.orderBook <;> simp
  · unfold removeOrderFromOrderBook
    cases h : removeFirstOrder oid st.orderBook <;> simp
  · unfold removeOrderFromOrderBook
    cases h : removeFirstOrder oid st.orderBook <;> simp
  · intro pre o post hob ho hpre
    unfold removeOrderFromOrderBook
    rw [hob, removeFirstOrder_first_match oid o pre post ho hpre]
  · intro h
    unfold removeOrderFromOrderBook
    rw [removeFirstOrder_no_match oid st.orderBook h]

/-- Witness for C5 at a concrete two-order book and a concrete miss. -/
theorem cancel_removes_exactly_the_matching_order_witness :
    removeOrderFromOrderBook "A"
        { orderBook := [orderA, orderB], tradeBook := [], positions := [],
          accountList := [] } =
      { orderBook := [orderB], tradeBook := [], positions := [],
        accountList := [] } ∧
    removeOrderFromOrderBook "Z"
        { orderBook := [orderA], tradeBook := [], positions := [],
          accountList := [] } =
      { orderBook := [orderA], tradeBook := [], positions := [],
        accountList := [] } := by
  constructor
  · have h :=
      (cancel_removes_exactly_the_matching_order
        { orderBook := [orderA, orderB], tradeBook := [], positions := [],
          accountList := [] } "A").2.2.2.1 [] orderA [orderB] rfl
        (by decide) (by intro x hx; simp at hx)
    simpa using h
  · have h :=
      (cancel_removes_exactly_the_matching_order
        { orderBook := [orderA], tradeBook := [], positions := [],
          accountList := [] } "Z").2.2.2.2 (by decide)
    simpa using h

/-! ## C9: symbol-resolution caching -/

theorem resolveSymbol_cache_hit {α : Type} (symbolCache : List (String × α))
    (symbolName : String) (apiOutcome : Except Unit α)
    (localResolve : String → Except Unit α) (i : α)
    (h : symbolCache.lookup symbolName = some i) :
    resolveSymbol symbolCache symbolName apiOutcome localResolve =
      ⟨.resolved i, symbolCache, false⟩ := by
  unfold resolveSymbol
  rw [h]

theorem resolveSymbol_stores_result {α : Type}
    (symbolCache : List (String × α)) (symbolName : String)
    (apiOutcome : Except Unit α) (localResolve : String → Except Unit α)
    (i : α)
    (h : (resolveSymbol symbolCache symbolName apiOutcome
      localResolve).outcome = .resolved i) :
    (resolveSymbol symbolCache symbolName apiOutcome
      localResolve).cache.lookup symbolName = some i := by
  unfold resolveSymbol at h ⊢
  cases hc : symbolCache.lookup symbolName with
  | some v =>
    simp only [hc] at h ⊢
    simp at h
    simp [hc, h]
  | none =>
    simp only [hc] at h ⊢
    cases apiOutcome with
    | ok info =>
      simp at h
      simp [List.lookup, h]
    | error e =>
      cases hl : localResolve symbolName with
      | ok info =>
        simp only [hl] at h ⊢
        simp at h
        simp [List.lookup, h]
      | error e2 => simp only [hl] at h; simp at h

/-- C9.  Symbol resolution is cached and idempotent: a cache hit is
served unchanged without contacting the API; a successful resolution is
stored in the cache under the symbol name; a second `resolveSymbol` for
the same name (with arbitrary API and local outcomes) returns the very
same symbol info without contacting the API and without changing the
cache; and `destroy` clears the cache. -/
theorem resolveSymbol_cached_idempotent {α : Type}
    (symbolCache : List (String × α)) (symbolName : String)
    (apiOutcome : Except Unit α) (localResolve : String → Except Unit α)
    (stD : DatafeedState α) :
    (∀ i, symbolCache.lookup symbolName = some i →
      resolveSymbol symbolCache symbolName apiOutcome localResolve =
        ⟨.resolved i, symbolCache, false⟩) ∧
    (∀ i,
      (resolveSymbol symbolCache symbolName apiOutcome localResolve).outcome =
        .resolved i →
      (resolveSymbol symbolCache symbolName apiOutcome
          localResolve).cache.lookup symbolName = some i) ∧
    (∀ i (apiOutcome2 : Except Unit α)
        (localResolve2 : String → Except Unit α),
      (resolveSymbol symbolCache symbolName apiOutcome localResolve).outcome =
        .resolved i →
      resolveSymbol
          (resolveSymbol symbolCache symbolName apiOutcome localResolve).cache
          symbolName apiOutcome2 localResolve2 =
        ⟨.resolved i,
          (resolveSymbol symbolCache symbolName apiOutcome
            localResolve).cache, false⟩) ∧
    (destroyDatafeed stD).symbolCache = [] := by
  refine ⟨?_, ?_, ?_, rfl⟩
  · intro i h
    exact resolveSymbol_cache_hit symbolCache symbolName apiOutcome
      localResolve i h
  · intro i h
    exact resolveSymbol_stores_result symbolCache symbolName apiOutcome
      localResolve i h
  · intro i apiOutcome2 localResolve2 h
    exact resolveSymbol_cache_hit _ symbolName apiOutcome2 localResolve2 i
      (resolveSymbol_stores_result symbolCache symbolName apiOutcome
        localResolve i h)

/-- Witness for C9: resolve once through the API, then resolve again
from the cache. -/
theorem resolveSymbol_cached_idempotent_witness :
    resolveSymbol
        (resolveSymbol ([] : List (String × ℕ)) "BTCUSDT" (Except.ok 42)
          (fun _ => Except.error ())).cache
        "BTCUSDT" (Except.error ()) (fun _ => Except.error ()) =
      ⟨.resolved 42, [("BTCUSDT", 42)], false⟩ := by
  have h :=
    (resolveSymbol_cached_idempotent ([] : List (String × ℕ)) "BTCUSDT"
      (Except.ok 42) (fun _ => Except.error ()) emptyFeed).2.2.1 42
      (Except.error ()) (fun _ => Except.error ()) (by decide)
  rw [h]
  decide

/-! ## C10: subscribe/unsubscribe round trip -/

/-- C10.  Subscribe/unsubscribe round trip: after `subscribeBars` and
then `unsubscribeBars` with the same UID, no streaming interval is
registered under that UID; other subscribers and the symbol cache are
untouched; when the subscriber had no interval before subscribing the
whole state is restored; and `unsubscribeBars` for a never-subscribed
UID is a no-op.  The hypothesis reflects that browser `setInterval`
handles are positive (a zero handle would be falsy in the source). -/
theorem subscribe_unsubscribe_round_trip {α : Type}
    (st : DatafeedState α) (subscriberUID : String) (handle : ℕ)
    (hhandle : handle ≠ 0) :
    (unsubscribeBars subscriberUID
        (subscribeBars subscriberUID handle st)).streamingIntervals
        subscriberUID = none ∧
    (∀ k, k ≠ subscriberUID →
      (unsubscribeBars subscriberUID
          (subscribeBars subscriberUID handle st)).streamingIntervals k =
        st.streamingIntervals k) ∧
    (unsubscribeBars subscriberUID
        (subscribeBars subscriberUID handle st)).symbolCache =
      st.symbolCache ∧
    (st.streamingIntervals subscriberUID = none →
      unsubscribeBars subscriberUID (subscribeBars subscriberUID handle st) =
        st) ∧
    (st.streamingIntervals subscriberUID = none →
      unsubscribeBars subscriberUID st = st) := by
  refine ⟨?_, ?_, ?_, ?_, ?_⟩
  · simp [unsubscribeBars, subscribeBars, startDemoStreaming, hhandle]
  · intro k hk
    simp [unsubscribeBars, subscribeBars, startDemoStreaming, hhandle, hk]
  · simp [unsubscribeBars, subscribeBars, startDemoStreaming, hhandle]
  · intro h0
    cases st with
    | mk cacheF intervalsF =>
      simp [unsubscribeBars, subscribeBars, startDemoStreaming, hhandle]
      funext k
      by_cases hk : k = subscriberUID
      · subst hk; simpa using h0.symm
      · simp [hk]
  · intro h0
    simp [unsubscribeBars, h0]

/-- Witness for C10 at a concrete state and handle. -/
theorem subscribe_unsubscribe_round_trip_witness :
    (unsubscribeBars "uid-1"
        (subscribeBars "uid-1" 7 emptyFeed)).streamingIntervals "uid-1" =
      none :=
  (subscribe_unsubscribe_round_trip emptyFeed "uid-1" 7 (by decide)).1

/-! ## C6: the Bybit interval label -/

/-- C6.  The interval label sent to the Bybit kline endpoint.  String
resolutions behave as specified: `"5m"` yields `"5"`, `"1h"` yields
`"60"`, `"1D"` yields `"D"`, and an unknown string defaults to `"D"`.
The object form `{scale: 5, units: "minutes"}` does NOT yield `"5"`:
`getBybitBars` assigns `scale = resolution.units` and
`units = resolution.scale` (swapped), so `deriveIntervalLabel` switches
on a number, falls through to its default and yields `"D"`, although
`deriveIntervalLabel` applied at its declared types does map
`(5, "minutes")` to `"5"`. -/
theorem bybit_interval_object_resolution_bug :
    bybitIntervalOf (.str "5m") = .ok "5" ∧
    bybitIntervalOf (.str "1h") = .ok "60" ∧
    bybitIntervalOf (.str "1D") = .ok "D" ∧
    bybitIntervalOf (.str "7z") = .ok "D" ∧
    bybitIntervalOf (.obj 5 "minutes") = .ok "D" ∧
    deriveIntervalLabel 5 "minutes" = "5" := by
  refine ⟨rfl, rfl, rfl, rfl, rfl, ?_⟩
  decide

/-! ## C2: getBars never rejects -/

theorem convertToUDFFormat_wellFormed (rawBars : List RawBar) :
    udfWellFormed (convertToUDFFormat rawBars) := by
  unfold convertToUDFFormat
  by_cases h : rawBars.isEmpty
  · simp [h, udfWellFormed]
  · simp [h, udfWellFormed]

/-- C2.  `getBars` never rejects: a non-BYBIT exchange always yields
demo bars in UDF format, any failure of the Bybit request path is
caught and also yields demo bars, only a successful Bybit request
yields the Bybit bars, the empty bar list converts to
`{s: "no_data", nextTime: null}`, and every result is well formed
(`no_data` with null `nextTime`, or `ok` with six parallel arrays). -/
theorem getBars_never_rejects (symbolInfo : DatafeedSymbolInfo)
    (resolution : ResolutionVal) (periodParams : PeriodParams)
    (bybitOutcome : Except Unit (List RawBar)) (rand : ℕ → ℚ) :
    (symbolInfo.exchange ≠ "BYBIT" →
      getBars symbolInfo resolution periodParams bybitOutcome rand =
        convertToUDFFormat
          (generateDemoData periodParams.fromMs periodParams.toMs resolution
            rand)) ∧
    (∀ e, bybitOutcome = .error e →
      getBars symbolInfo resolution periodParams bybitOutcome rand =
        convertToUDFFormat
          (generateDemoData periodParams.fromMs periodParams.toMs resolution
            rand)) ∧
    (∀ rawBars, symbolInfo.exchange = "BYBIT" → bybitOutcome = .ok rawBars →
      getBars symbolInfo resolution periodParams bybitOutcome rand =
        convertToUDFFormat rawBars) ∧
    convertToUDFFormat [] = .no_data none ∧
    udfWellFormed (getBars symbolInfo resolution periodParams bybitOutcome
      rand) := by
  refine ⟨?_, ?_, ?_, rfl, ?_⟩
  · intro h
    simp [getBars, h]
  · intro e he
    subst he
    unfold getBars
    by_cases h : symbolInfo.exchange = "BYBIT" <;> simp [h]
  · intro rawBars hex hok
    subst hok
    simp [getBars, hex]
  · unfold getBars
    by_cases h : symbolInfo.exchange = "BYBIT"
    · cases bybitOutcome with
      | ok rawBars => simpa [h] using convertToUDFFormat_wellFormed rawBars
      | error e =>
        simpa [h] using
          convertToUDFFormat_wellFormed
            (generateDemoData periodParams.fromMs periodParams.toMs resolution
              rand)
    · simpa [h] using
        convertToUDFFormat_wellFormed
          (generateDemoData periodParams.fromMs periodParams.toMs resolution
            rand)

/-- Witness for C2 on a non-BYBIT symbol. -/
theorem getBars_never_rejects_witness :
    getBars c2SymbolInfo (.str "1D") c7Period (.error ()) randHalf =
      convertToUDFFormat (generateDemoData 0 60000 (.str "1D") randHalf) :=
  (getBars_never_rejects c2SymbolInfo (.str "1D") c7Period (.error ())
    randHalf).1 (by decide)

/-! ## C7: the two createChartDatafeed implementations -/

theorem demoLoopTyped_eq (rand : ℕ → ℚ) (e i : ℚ) (fuel : ℕ) (b t : ℚ)
    (k : ℕ) :
    demoLoopTyped rand e i fuel b t k = demoLoop rand e i fuel b t k := by
  induction fuel generalizing b t k with
  | zero => rfl
  | succ n ih =>
    unfold demoLoop demoLoopTyped
    by_cases h : t < e <;> simp [h, ih]

/-- Counterexample to C7: on a symbol info that carries only the legacy
`name` field, the untyped `getBybitBars` falls back to `symbolInfo.name`
for the request symbol while the typed version falls back to the empty
string, so the two implementations send different Bybit request URLs
(hence produce different results) for the same input. -/
theorem typed_untyped_datafeed_not_equivalent :
    bybitRequestUrlTyped c7SymbolInfo (.str "1D") c7Period 0 ≠
      bybitRequestUrl c7SymbolInfo (.str "1D") c7Period 0 := by
  decide

theorem bybitSymbol_agree (si : DatafeedSymbolInfo)
    (h : jsS (jsOrS si.symbol si.ticker) "" ≠ "") :
    jsTemplate (jsOrS si.symbol (jsOrS si.ticker si.name)) =
      jsS (jsOrS si.symbol si.ticker) "" := by
  rcases si with ⟨ex, sym, tick, nm⟩
  simp only at h ⊢
  cases sym with
  | some s =>
    by_cases hs : s = "" <;>
      cases tick with
      | some u =>
        by_cases hu : u = "" <;>
          simp_all [jsS, jsOrS, jsTemplate]
      | none => simp_all [jsS, jsOrS, jsTemplate]
  | none =>
    cases tick with
    | some u =>
      by_cases hu : u = "" <;> simp_all [jsS, jsOrS, jsTemplate]
    | none => simp_all [jsS, jsOrS]

/-- C7 as amended.  The two `createChartDatafeed` implementations agree
on the pure datafeed core: `convertToUDFFormat`,
`convertIntervalToResolution`, `deriveIntervalLabel`, the (equally
swapped) interval computation of `getBybitBars`, `generateDemoData`,
the `getBars` dispatch given identical Bybit outcomes,
`subscribeBars`/`unsubscribeBars` and `destroy`; and `getBybitBars`
builds the same request URL whenever `symbolInfo.symbol ||
symbolInfo.ticker` is truthy.  (When both are falsy the untyped version
falls back to `symbolInfo.name` and the typed one to `""`, the
divergence exhibited by the counterexample; the symbol-resolution
fallback objects of the two versions also differ in their field sets
and are not claimed equivalent.) -/
theorem typed_untyped_datafeed_equivalence_amended :
    (∀ rawBars, convertToUDFFormatTyped rawBars = convertToUDFFormat rawBars) ∧
    (∀ s, convertIntervalToResolutionTyped s = convertIntervalToResolution s) ∧
    (∀ scale units,
      deriveIntervalLabelTyped scale units = deriveIntervalLabel scale units) ∧
    (∀ r, bybitIntervalOfTyped r = bybitIntervalOf r) ∧
    (∀ a b r rand,
      generateDemoDataTyped a b r rand = generateDemoData a b r rand) ∧
    (∀ si r pp bo rand, getBarsTyped si r pp bo rand = getBars si r pp bo rand) ∧
    (∀ (α : Type) (st : DatafeedState α) uid handle,
      subscribeBarsTyped uid handle st = subscribeBars uid handle st) ∧
    (∀ (α : Type) (st : DatafeedState α) uid,
      unsubscribeBarsTyped uid st = unsubscribeBars uid st) ∧
    (∀ (α : Type) (st : DatafeedState α),
      destroyDatafeedTyped st = destroyDatafeed st) ∧
    (∀ si r pp now, jsS (jsOrS (DatafeedSymbolInfo.symbol si) si.ticker) "" ≠ "" →
      bybitRequestUrlTyped si r pp now = bybitRequestUrl si r pp now) := by
  have hgen : ∀ (a b : ℤ) (r : ResolutionVal) (rand : ℕ → ℚ),
      generateDemoDataTyped a b r rand = generateDemoData a b r rand := by
    intro a b r rand
    unfold generateDemoDataTyped generateDemoData
    simp only []
    exact demoLoopTyped_eq rand _ _ _ _ _ _
  refine ⟨fun _ => rfl, fun _ => rfl, fun _ _ => rfl, fun _ => rfl, hgen,
    ?_, fun _ _ _ _ => rfl, fun _ _ _ => rfl, fun _ _ => rfl, ?_⟩
  · intro si r pp bo rand
    unfold getBarsTyped getBars
    by_cases h : si.exchange = "BYBIT"
    · cases bo with
      | ok rawBars => simp [h, convertToUDFFormatTyped, convertToUDFFormat]
      | error e =>
        simp [h, hgen, convertToUDFFormatTyped, convertToUDFFormat]
    · simp [h, hgen, convertToUDFFormatTyped, convertToUDFFormat]
  · intro si r pp now hsym
    unfold bybitRequestUrlTyped bybitRequestUrl
    have hint : bybitIntervalOfTyped r = bybitIntervalOf r := rfl
    rw [hint]
    cases hb : bybitIntervalOf r with
    | error e => rfl
    | ok interval =>
      simp only []
      rw [bybitSymbol_agree si hsym]

/-- Witness for the amended C7: with a truthy `symbolInfo.symbol` the
two implementations build the same Bybit request URL. -/
theorem typed_untyped_datafeed_equivalence_amended_witness :
    bybitRequestUrlTyped c7wSymbolInfo (.str "1D") c7Period 0 =
      bybitRequestUrl c7wSymbolInfo (.str "1D") c7Period 0 :=
  typed_untyped_datafeed_equivalence_amended.2.2.2.2.2.2.2.2.2 c7wSymbolInfo
    (.str "1D") c7Period 0 (by decide)

/-! ## C4: the synthetic random walk -/

theorem demoLoop_get_time (rand : ℕ → ℚ) (e i : ℚ) (fuel : ℕ) (b t : ℚ)
    (k j : ℕ) (bar : RawBar)
    (h : (demoLoop rand e i fuel b t k)[j]? = some bar) :
    demoBarTime bar = t + j * i ∧ demoBarTime bar < e := by
  induction fuel generalizing b t k j with
  | zero => simp [demoLoop] at h
  | succ n ih =>
    unfold demoLoop at h
    by_cases hc : t < e
    · rw [if_pos hc] at h
      cases j with
      | zero =>
        simp at h
        subst h
        refine ⟨by simp [demoBarTime], by simpa [demoBarTime] using hc⟩
      | succ m =>
        simp only [List.getElem?_cons_succ] at h
        have hm := ih (b + (rand k - 1 / 2) * 1000) (t + i) (k + 4) m h
        refine ⟨?_, hm.2⟩
        rw [hm.1]
        push_cast
        ring
    · rw [if_neg hc] at h
      simp at h

theorem demoLoop_get_wicks (rand : ℕ → ℚ) (hrand : ∀ m, 0 ≤ rand m)
    (e i : ℚ) (fuel : ℕ) (b t : ℚ) (k j : ℕ) (bar : RawBar)
    (h : (demoLoop rand e i fuel b t k)[j]? = some bar) :
    max bar.opn bar.close ≤ bar.high ∧ bar.low ≤ min bar.opn bar.close := by
  induction fuel generalizing b t k j with
  | zero => simp [demoLoop] at h
  | succ n ih =>
    unfold demoLoop at h
    by_cases hc : t < e
    · rw [if_pos hc] at h
      cases j with
      | zero =>
        simp at h
        subst h
        constructor
        · exact le_add_of_nonneg_right
            (mul_nonneg (hrand (k + 1)) (by norm_num))
        · exact sub_le_self _
            (mul_nonneg (hrand (k + 2)) (by norm_num))
      | succ m =>
        simp only [List.getElem?_cons_succ] at h
        exact ih (b + (rand k - 1 / 2) * 1000) (t + i) (k + 4) m h
    · rw [if_neg hc] at h
      simp at h

theorem demoLoop_head_opn (rand : ℕ → ℚ) (e i : ℚ) (fuel : ℕ) (b t : ℚ)
    (k : ℕ) (bar : RawBar)
    (h : (demoLoop rand e i fuel b t k)[0]? = some bar) : bar.opn = b := by
  cases fuel with
  | zero => simp [demoLoop] at h
  | succ n =>
    unfold demoLoop at h
    by_cases hc : t < e
    · rw [if_pos hc] at h
      simp at h
      subst h
      rfl
    · rw [if_neg hc] at h
      simp at h

theorem demoLoop_chain (rand : ℕ → ℚ) (e i : ℚ) (fuel : ℕ) (b t : ℚ)
    (k j : ℕ) (b1 b2 : RawBar)
    (h1 : (demoLoop rand e i fuel b t k)[j]? = some b1)
    (h2 : (demoLoop rand e i fuel b t k)[j + 1]? = some b2) :
    b2.opn = b1.close := by
  induction fuel generalizing b t k j with
  | zero => simp [demoLoop] at h1
  | succ n ih =>
    unfold demoLoop at h1 h2
    by_cases hc : t < e
    · rw [if_pos hc] at h1 h2
      cases j with
      | zero =>
        simp at h1
        subst h1
        simp only [List.getElem?_cons_succ] at h2
        have := demoLoop_head_opn rand e i n (b + (rand k - 1 / 2) * 1000)
          (t + i) (k + 4) b2 h2
        simpa using this
      | succ m =>
        simp only [List.getElem?_cons_succ] at h1 h2
        exact ih (b + (rand k - 1 / 2) * 1000) (t + i) (k + 4) m h1 h2
    · rw [if_neg hc] at h1
      simp at h1

/-- C4.  The synthetic fallback is a random walk: bar `j` is stamped at
`from/1000 + j * interval` where the interval is `parseInt(resolution)
* 60` seconds for a string resolution parsing to a number and 86400
seconds otherwise; every timestamp is strictly below `to/1000`; the
first bar opens at 50000; each later bar opens at the previous close;
and each bar's high (low) is at least (at most) the larger (smaller) of
its open and close, given that the `Math.random()` draws are
nonnegative. -/
theorem generateDemoData_random_walk (fromMs toMs : ℤ)
    (resolution : ResolutionVal) (rand : ℕ → ℚ)
    (hrand : ∀ m, 0 ≤ rand m) :
    (∀ s n, jsParseInt s = some n → demoInterval (.str s) = n * 60) ∧
    (∀ s, jsParseInt s = none → demoInterval (.str s) = 86400) ∧
    (∀ scale units, demoInterval (.obj scale units) = 86400) ∧
    (∀ (j : ℕ) bar,
      (generateDemoData fromMs toMs resolution rand)[j]? = some bar →
      demoBarTime bar = (fromMs : ℚ) / 1000 + j * demoInterval resolution ∧
      demoBarTime bar < (toMs : ℚ) / 1000 ∧
      max bar.opn bar.close ≤ bar.high ∧
      bar.low ≤ min bar.opn bar.close) ∧
    (∀ bar, (generateDemoData fromMs toMs resolution rand)[0]? = some bar →
      bar.opn = 50000) ∧
    (∀ (j : ℕ) b1 b2,
      (generateDemoData fromMs toMs resolution rand)[j]? = some b1 →
      (generateDemoData fromMs toMs resolution rand)[j + 1]? = some b2 →
      b2.opn = b1.close) := by
  refine ⟨?_, ?_, fun _ _ => rfl, ?_, ?_, ?_⟩
  · intro s n h
    simp [demoInterval, h]
  · intro s h
    simp [demoInterval, h]
  · intro j bar h
    simp only [generateDemoData] at h
    have h1 := demoLoop_get_time rand ((toMs : ℚ) / 1000)
      (demoInterval resolution) _ 50000 ((fromMs : ℚ) / 1000) 0 j bar h
    have h2 := demoLoop_get_wicks rand hrand ((toMs : ℚ) / 1000)
      (demoInterval resolution) _ 50000 ((fromMs : ℚ) / 1000) 0 j bar h
    exact ⟨h1.1, h1.2, h2.1, h2.2⟩
  · intro bar h
    simp only [generateDemoData] at h
    exact demoLoop_head_opn rand ((toMs : ℚ) / 1000)
      (demoInterval resolution) _ 50000 ((fromMs : ℚ) / 1000) 0 bar h
  · intro j b1 b2 h1 h2
    simp only [generateDemoData] at h1 h2
    exact demoLoop_chain rand ((toMs : ℚ) / 1000) (demoInterval resolution)
      _ 50000 ((fromMs : ℚ) / 1000) 0 j b1 b2 h1 h2

/-- Witness for C4: with nonnegative draws, the interval clause applied
at the resolution string `"5m"`. -/
theorem generateDemoData_random_walk_witness :
    demoInterval (.str "5m") = 5 * 60 :=
  (generateDemoData_random_walk 0 120000 (.str "1") randHalf
    (fun _ => by norm_num [randHalf])).1 "5m" 5 (by decide)

/-! ## C3: market orders fill, others stay open -/

/-- Counterexample to C3: a message whose order type reaches the stored
order only via the `orderData.type` fallback (which the market test of
`addOrderToOrderBook` does not consult) produces an order whose
`orderType` is `"market"` yet which is appended with status `"open"`,
full remaining size and no trade. -/
theorem market_type_fallback_order_stays_open :
    c3Order.orderType = "market" ∧
    addOrderToOrderBook c3Data sampleEnv "BYBIT:FUTURE:BTCUSDT" emptyBroker =
      { emptyBroker with orderBook := [c3Order] } ∧
    c3Order.status = "open" ∧
    c3Order.remainingSize = 2 ∧
    (addOrderToOrderBook c3Data sampleEnv "BYBIT:FUTURE:BTCUSDT"
      emptyBroker).tradeBook = [] := by
  have hcond : isMarketOrderOf (c3Data.order.getD {}) c3Data = false := rfl
  refine ⟨rfl, ?_, rfl, ?_, ?_⟩
  · simp [addOrderToOrderBook, hcond, c3Order, emptyBroker]
  · norm_num [c3Order, newOrderOf, orderSizeOf, jsQ, jsOrQ, c3Data]
  · simp [addOrderToOrderBook, hcond, emptyBroker]

/-- C3 as amended.  Market detection uses only `order.orderType ||
orderData.orderType` (ignoring the `orderData.type` fallback that still
feeds the stored `orderType` field).  When that test says market, the
order is appended filled (filledSize equal to its size, remaining size
0, fill price the last traded price) followed by any protective orders,
and exactly one trade is appended whose value is the execution price
times the size and whose commission is 0.001 of that value; otherwise
the order is appended open with full remaining size and the trade book
and positions are unchanged. -/
theorem addOrder_market_fills_others_stay_open (orderData : OrderInputData)
    (env : GenEnv) (currentSymbol : String) (st : BrokerState) :
    (isMarketOrderOf (orderData.order.getD {}) orderData = true →
      (addOrderToOrderBook orderData env currentSymbol st).orderBook =
        st.orderBook ++
          fillOrder (newOrderOf orderData env currentSymbol)
            (jsQ orderData.ltp getCurrentLTP) ::
          handleMarketOrderWithTPSL
            (fillOrder (newOrderOf orderData env currentSymbol)
              (jsQ orderData.ltp getCurrentLTP))
            (orderData.order.getD {}) env ∧
      (fillOrder (newOrderOf orderData env currentSymbol)
        (jsQ orderData.ltp getCurrentLTP)).status = "filled" ∧
      (fillOrder (newOrderOf orderData env currentSymbol)
        (jsQ orderData.ltp getCurrentLTP)).filledSize =
        (newOrderOf orderData env currentSymbol).size ∧
      (fillOrder (newOrderOf orderData env currentSymbol)
        (jsQ orderData.ltp getCurrentLTP)).remainingSize = 0 ∧
      (fillOrder (newOrderOf orderData env currentSymbol)
        (jsQ orderData.ltp getCurrentLTP)).fillPrice =
        some (jsQ orderData.ltp getCurrentLTP) ∧
      (addOrderToOrderBook orderData env currentSymbol st).tradeBook =
        st.tradeBook ++
          [newTradeOf (newOrderOf orderData env currentSymbol)
            (jsQ orderData.ltp getCurrentLTP) env.genTradeId env.now] ∧
      (newTradeOf (newOrderOf orderData env currentSymbol)
        (jsQ orderData.ltp getCurrentLTP) env.genTradeId env.now).value =
        jsQ orderData.ltp getCurrentLTP *
          (newOrderOf orderData env currentSymbol).size ∧
      (newTradeOf (newOrderOf orderData env currentSymbol)
        (jsQ orderData.ltp getCurrentLTP) env.genTradeId env.now).commission =
        1 / 1000 *
          (newTradeOf (newOrderOf orderData env currentSymbol)
            (jsQ orderData.ltp getCurrentLTP) env.genTradeId env.now).value ∧
      (addOrderToOrderBook orderData env currentSymbol st).accountList =
        st.accountList) ∧
    (isMarketOrderOf (orderData.order.getD {}) orderData = false →
      addOrderToOrderBook orderData env currentSymbol st =
        { st with
            orderBook :=
              st.orderBook ++ [newOrderOf orderData env currentSymbol] } ∧
      (newOrderOf orderData env currentSymbol).status = "open" ∧
      (newOrderOf orderData env currentSymbol).remainingSize =
        (newOrderOf orderData env currentSymbol).size) := by
  constructor
  · intro h
    refine ⟨?_, rfl, rfl, rfl, rfl, ?_, rfl, ?_, ?_⟩
    · simp [addOrderToOrderBook, h]
    · simp [addOrderToOrderBook, h, createPositionAndTrade]
    · simp [newTradeOf]
      ring
    · simp [addOrderToOrderBook, h, createPositionAndTrade]
  · intro h
    refine ⟨?_, rfl, rfl⟩
    simp [addOrderToOrderBook, h]

/-- Witness for the amended C3 on a plain market order. -/
theorem addOrder_market_fills_others_stay_open_witness :
    (addOrderToOrderBook c3wData sampleEnv "BYBIT:FUTURE:BTCUSDT"
      emptyBroker).tradeBook =
      [newTradeOf (newOrderOf c3wData sampleEnv "BYBIT:FUTURE:BTCUSDT")
        (jsQ c3wData.ltp getCurrentLTP) sampleEnv.genTradeId sampleEnv.now] := by
  have hcond : isMarketOrderOf (c3wData.order.getD {}) c3wData = true := rfl
  have h := (addOrder_market_fills_others_stay_open c3wData sampleEnv
    "BYBIT:FUTURE:BTCUSDT" emptyBroker).1 hcond
  simpa [emptyBroker] using h.2.2.2.2.2.1

/-! ## C1: position netting -/

theorem abs_add_of_same_sign (a b : ℚ)
    (h : (a > 0 ∧ b > 0) ∨ (a < 0 ∧ b < 0)) : |a + b| = |a| + |b| := by
  rcases h with ⟨ha, hb⟩ | ⟨ha, hb⟩
  · rw [abs_of_pos ha, abs_of_pos hb, abs_of_pos (by linarith)]
  · rw [abs_of_neg ha, abs_of_neg hb, abs_of_neg (by linarith)]
    ring

theorem netFirst_first_match (productId symbol : String) (s e : ℚ)
    (pre post : List Position) (p : Position)
    (hp : p.productId = productId ∧ p.symbol = symbol)
    (hpre : ∀ q ∈ pre, ¬(q.productId = productId ∧ q.symbol = symbol)) :
    netFirst productId symbol s e (pre ++ p :: post) =
      some (pre ++ (netOne s e p ++ post)) := by
  induction pre with
  | nil => simp [netFirst, hp.1, hp.2]
  | cons a l ih =>
    have ha := hpre a (by simp)
    have ih2 := ih (fun q hq => hpre q (by simp [hq]))
    simp [netFirst, ha, ih2]

theorem netFirst_no_match (productId symbol : String) (s e : ℚ)
    (ps : List Position)
    (h : ∀ q ∈ ps, ¬(q.productId = productId ∧ q.symbol = symbol)) :
    netFirst productId symbol s e ps = none := by
  induction ps with
  | nil => rfl
  | cons a t ih =>
    have ha := h a (by simp)
    have ih2 := ih (fun q hq => h q (by simp [hq]))
    simp [netFirst, ha, ih2]

/-- Counterexample to C1: netting a same-direction fill into a tiny
position can leave the resulting absolute size below the 0.0001
threshold, yet the position is NOT removed (the removal check runs only
in the opposite-direction branch).  An existing long of 0.00003 plus a
market buy of 0.00003 leaves a position of size 0.00006 in the list. -/
theorem tiny_same_direction_position_not_removed :
    |c1Pos.size + orderSizeWithSign c1Order| < closeEps ∧
    applyFillToPositions c1Order {} 100 "P2" [c1Pos] =
      [{ c1Pos with
          size := 6 / 100000
          price := 100
          amount := 6 / 1000
          size_currency := 6 / 100000 }] := by
  have hsize : c1Order.size = 3 / 100000 := by
    norm_num [c1Order, newOrderOf, orderSizeOf, jsQ, jsOrQ, c1Data]
  have hside : c1Order.side = "buy" := rfl
  have hsign : orderSizeWithSign c1Order = 3 / 100000 := by
    rw [orderSizeWithSign, hside, hsize, if_neg (by decide)]
  constructor
  · rw [hsign]
    norm_num [c1Pos, closeEps, abs_of_nonneg]
  · have hmatch : netFirst c1Order.productId c1Order.symbol
        (orderSizeWithSign c1Order) 100 [c1Pos] =
        some ([] ++ (netOne (orderSizeWithSign c1Order) 100 c1Pos ++ [])) := by
      refine netFirst_first_match _ _ _ _ [] [] c1Pos ⟨rfl, rfl⟩ ?_
      intro q hq
      simp at hq
    unfold applyFillToPositions
    rw [hmatch]
    rw [hsign]
    simp only [netOne]
    rw [if_pos (by norm_num [c1Pos])]
    norm_num [c1Pos, abs_of_nonneg]

/-- C1 as amended.  Position netting on market-order execution, with
the existing position the first match in the list: (1) a same-sign fill
adds the sizes and moves the price to the size-weighted average of the
old price and the execution price (for nonnegative prices), with the
amount and currency size updated accordingly, and the position is kept
even when the resulting absolute size is below 0.0001; (2) an
opposite-sign fill adds the sizes and keeps the price, except that
(3) when the resulting absolute size is below 0.0001 the position is
removed; and when no position matches, a new position is created at the
execution price whose signed size is the order size for a buy and its
negation for a sell. -/
theorem createPosition_netting_amended (o : Order) (sec : SecurityData)
    (exec : ℚ) (posId : String) (pre post : List Position) (p : Position)
    (hp : p.productId = o.productId ∧ p.symbol = o.symbol)
    (hpre : ∀ q ∈ pre, ¬(q.productId = o.productId ∧ q.symbol = o.symbol)) :
    ((p.size > 0 ∧ orderSizeWithSign o > 0) ∨
        (p.size < 0 ∧ orderSizeWithSign o < 0) →
      0 ≤ p.price → 0 ≤ exec →
      applyFillToPositions o sec exec posId (pre ++ p :: post) =
        pre ++
          { p with
              size := p.size + orderSizeWithSign o,
              price :=
                (p.price * |p.size| + exec * |orderSizeWithSign o|) /
                  (|p.size| + |orderSizeWithSign o|),
              amount :=
                (p.price * |p.size| + exec * |orderSizeWithSign o|) /
                  (|p.size| + |orderSizeWithSign o|) *
                  |p.size + orderSizeWithSign o|,
              size_currency := |p.size + orderSizeWithSign o| } :: post) ∧
    ((p.size > 0 ∧ orderSizeWithSign o < 0) ∨
        (p.size < 0 ∧ orderSizeWithSign o > 0) →
      (closeEps ≤ |p.size + orderSizeWithSign o| →
        applyFillToPositions o sec exec posId (pre ++ p :: post) =
          pre ++
            { p with
                size := p.size + orderSizeWithSign o,
                amount := p.price * |p.size + orderSizeWithSign o|,
                size_currency := |p.size + orderSizeWithSign o| } :: post) ∧
      (|p.size + orderSizeWithSign o| < closeEps →
        applyFillToPositions o sec exec posId (pre ++ p :: post) =
          pre ++ post)) ∧
    (∀ ps, (∀ q ∈ ps, ¬(q.productId = o.productId ∧ q.symbol = o.symbol)) →
      applyFillToPositions o sec exec posId ps =
        ps ++ [newPositionOf o sec exec posId] ∧
      (newPositionOf o sec exec posId).price = exec ∧
      (o.side = "buy" → (newPositionOf o sec exec posId).size = o.size) ∧
      (o.side = "sell" → (newPositionOf o sec exec posId).size = -o.size)) := by
  refine ⟨?_, ?_, ?_⟩
  · intro hdir hpp hep
    have hprice :
        (|p.price * p.size| + |exec * orderSizeWithSign o|) /
          |p.size + orderSizeWithSign o| =
        (p.price * |p.size| + exec * |orderSizeWithSign o|) /
          (|p.size| + |orderSizeWithSign o|) := by
      rw [abs_mul, abs_mul, abs_of_nonneg hpp, abs_of_nonneg hep,
        abs_add_of_same_sign _ _ hdir]
    unfold applyFillToPositions
    rw [netFirst_first_match _ _ _ _ pre post p hp hpre]
    simp only [netOne]
    rw [if_pos hdir, hprice]
    simp
  · intro hdir
    have hnot : ¬((p.size > 0 ∧ orderSizeWithSign o > 0) ∨
        (p.size < 0 ∧ orderSizeWithSign o < 0)) := by
      rcases hdir with ⟨h1, h2⟩ | ⟨h1, h2⟩ <;>
        rintro (⟨h3, h4⟩ | ⟨h3, h4⟩) <;> linarith
    constructor
    · intro hkeep
      unfold applyFillToPositions
      rw [netFirst_first_match _ _ _ _ pre post p hp hpre]
      simp only [netOne]
      rw [if_neg hnot, if_neg (by linarith)]
      simp
    · intro hclose
      unfold applyFillToPositions
      rw [netFirst_first_match _ _ _ _ pre post p hp hpre]
      simp only [netOne]
      rw [if_neg hnot, if_pos hclose]
      simp
  · intro ps hps
    refine ⟨?_, rfl, ?_, ?_⟩
    · unfold applyFillToPositions
      rw [netFirst_no_match _ _ _ _ ps hps]
    · intro hb
      show orderSizeWithSign o = o.size
      unfold orderSizeWithSign
      rw [hb]
      simp
    · intro hs
      show orderSizeWithSign o = -o.size
      unfold orderSizeWithSign
      rw [hs]
      simp

/-- Witness for the amended C1: a same-direction buy of 1 at 110 into a
long of 1 at 100 yields a position of 2 at the weighted average 105. -/
theorem createPosition_netting_amended_witness :
    applyFillToPositions c1wOrder {} 110 "P2" [c1wPos] =
      [{ c1wPos with
          size := 2
          price := 105
          amount := 210
          size_currency := 2 }] := by
  have hsize : c1wOrder.size = 1 := by
    norm_num [c1wOrder, newOrderOf, orderSizeOf, jsQ, jsOrQ, c1wData]
  have hsign : orderSizeWithSign c1wOrder = 1 := by
    rw [orderSizeWithSign, (rfl : c1wOrder.side = "buy"), hsize,
      if_neg (by decide)]
  have h := ((createPosition_netting_amended c1wOrder {} 110 "P2" [] []
    c1wPos ⟨rfl, rfl⟩ (by intro q hq; simp at hq)).1
    (by rw [hsign]; norm_num [c1wPos])
    (by norm_num [c1wPos]) (by norm_num))
  simp only [List.nil_append] at h
  rw [h, hsign]
  norm_num [c1wPos, abs_of_nonneg]

/-! ## C8: position-book invariant -/

theorem netOne_preserves_ok (s e : ℚ) (p : Position) (hp : positionOk p) :
    ∀ q ∈ netOne s e p, positionOk q := by
  obtain ⟨h1, h2, h3, h4, h5, h6⟩ := hp
  intro q hq
  simp only [netOne] at hq
  by_cases hdir : (p.size > 0 ∧ s > 0) ∨ (p.size < 0 ∧ s < 0)
  · rw [if_pos hdir] at hq
    simp at hq
    subst hq
    refine ⟨rfl, rfl, ?_, h4, h5, h6⟩
    rw [abs_add_of_same_sign _ _ hdir]
    have := abs_nonneg s
    linarith
  · rw [if_neg hdir] at hq
    by_cases hsm : |p.size + s| < closeEps
    · rw [if_pos hsm] at hq
      simp at hq
    · rw [if_neg hsm] at hq
      simp at hq
      subst hq
      exact ⟨rfl, rfl, not_lt.mp hsm, h4, h5, h6⟩

theorem netFirst_preserves_ok (pid sym : String) (s e : ℚ) :
    ∀ (ps ps2 : List Position), netFirst pid sym s e ps = some ps2 →
      (∀ p ∈ ps, positionOk p) → ∀ p ∈ ps2, positionOk p := by
  intro ps
  induction ps with
  | nil => intro ps2 h; simp [netFirst] at h
  | cons a t ih =>
    intro ps2 h hps
    unfold netFirst at h
    by_cases hc : a.productId = pid ∧ a.symbol = sym
    · rw [if_pos hc] at h
      have h2 : netOne s e a ++ t = ps2 := Option.some.inj h
      subst h2
      intro p hp
      rcases List.mem_append.mp hp with hmem | hmem
      · exact netOne_preserves_ok s e a (hps a (by simp)) p hmem
      · exact hps p (by simp [hmem])
    · rw [if_neg hc] at h
      cases hrec : netFirst pid sym s e t with
      | none => rw [hrec] at h; simp at h
      | some t2 =>
        rw [hrec] at h
        simp at h
        subst h
        intro p hp
        rcases List.mem_cons.mp hp with hmem | hmem
        · subst hmem; exact hps p (by simp)
        · exact ih t2 hrec (fun q hq => hps q (by simp [hq])) p hmem

theorem newPositionOf_ok (o : Order) (sec : SecurityData) (e : ℚ)
    (posId : String) (hsz : closeEps ≤ o.size) :
    positionOk (newPositionOf o sec e posId) := by
  have hpos : 0 < o.size := lt_of_lt_of_le (by norm_num [closeEps]) hsz
  unfold positionOk newPositionOf orderSizeWithSign
  by_cases hs : o.side = "sell"
  · rw [if_pos hs]
    refine ⟨?_, ?_, ?_, rfl, rfl, rfl⟩
    · simp only []
      rw [abs_neg, abs_of_pos hpos]
    · simp only []
      rw [abs_neg]
    · simp only []
      rw [abs_neg, abs_of_pos hpos]
      exact hsz
  · rw [if_neg hs]
    refine ⟨?_, ?_, ?_, rfl, rfl, rfl⟩
    · simp only []
      rw [abs_of_pos hpos]
    · simp only []
    · simp only []
      rw [abs_of_pos hpos]
      exact hsz

theorem applyFill_preserves_ok (o : Order) (sec : SecurityData) (e : ℚ)
    (posId : String) (ps : List Position)
    (hps : ∀ p ∈ ps, positionOk p) (hsz : closeEps ≤ o.size) :
    ∀ p ∈ applyFillToPositions o sec e posId ps, positionOk p := by
  unfold applyFillToPositions
  cases h : netFirst o.productId o.symbol (orderSizeWithSign o) e ps with
  | some ps2 =>
    intro p hp
    exact netFirst_preserves_ok _ _ _ _ ps ps2 h hps p hp
  | none =>
    intro p hp
    rcases List.mem_append.mp hp with hmem | hmem
    · exact hps p hmem
    · have : p = newPositionOf o sec e posId := by simpa using hmem
      subst this
      exact newPositionOf_ok o sec e posId hsz

theorem stepBroker_preserves_ok (st : BrokerState) (op : BrokerOp)
    (hst : ∀ p ∈ st.positions, positionOk p) (hop : opSizeOk op) :
    ∀ p ∈ (stepBroker st op).positions, positionOk p := by
  cases op with
  | place orderData env currentSymbol =>
    show ∀ p ∈ (addOrderToOrderBook orderData env currentSymbol st).positions,
      positionOk p
    unfold addOrderToOrderBook
    by_cases hmk : isMarketOrderOf (orderData.order.getD {}) orderData = true
    · rw [if_pos hmk]
      intro p hp
      simp only [createPositionAndTrade] at hp
      refine applyFill_preserves_ok _ _ _ _ st.positions hst ?_ p hp
      exact hop
    · rw [if_neg hmk]
      exact hst
  | cancel orderId =>
    show ∀ p ∈ (removeOrderFromOrderBook orderId st).positions, positionOk p
    unfold removeOrderFromOrderBook
    cases h : removeFirstOrder orderId st.orderBook <;> simpa using hst
  | modify modifyData now =>
    show ∀ p ∈ (modifyOrderInOrderBook modifyData now st).positions,
      positionOk p
    simp only [modifyOrderInOrderBook]
    split <;> simpa using hst
  | reset => intro p hp; simp [stepBroker, handleResetBrokerData] at hp

/-- C8 as amended.  Provided every placed order has an effective size
of at least 0.0001, every position reachable by any sequence of trading
operations from a state whose positions already satisfy the invariant
(in particular from the empty initial state) satisfies: amount = price
× |size|, size_currency = |size|, |size| ≥ 0.0001, and pnl, unPnl and
rPnl all equal 0. -/
theorem position_book_invariant_amended (ops : List BrokerOp)
    (st : BrokerState) (hst : ∀ p ∈ st.positions, positionOk p)
    (hops : ∀ op ∈ ops, opSizeOk op) :
    ∀ p ∈ (runBroker st ops).positions, positionOk p := by
  induction ops generalizing st with
  | nil => simpa [runBroker] using hst
  | cons op rest ih =>
    have h1 := stepBroker_preserves_ok st op hst (hops op (by simp))
    have h2 := ih (stepBroker st op) h1 (fun o ho => hops o (by simp [ho]))
    simpa [runBroker] using h2

/-- Counterexample to C8 as stated: a single market buy of size 0.00003
(below the 0.0001 threshold) creates and keeps a position whose
absolute size is below 0.0001, violating the claimed invariant on the
reachable states. -/
theorem tiny_order_breaks_position_invariant :
    (runBroker emptyBroker
        [.place c8Data sampleEnv "BYBIT:FUTURE:BTCUSDT"]).positions =
      [newPositionOf (newOrderOf c8Data sampleEnv "BYBIT:FUTURE:BTCUSDT") {}
        (jsQ c8Data.ltp getCurrentLTP) "PID"] ∧
    |(newPositionOf (newOrderOf c8Data sampleEnv "BYBIT:FUTURE:BTCUSDT") {}
        (jsQ c8Data.ltp getCurrentLTP) "PID").size| < closeEps := by
  constructor
  · have hcond : isMarketOrderOf (c8Data.order.getD {}) c8Data = true := rfl
    simp only [runBroker, List.foldl, stepBroker, addOrderToOrderBook]
    rw [if_pos hcond]
    simp only [createPositionAndTrade, applyFillToPositions, netFirst]
    simp [c8Data, sampleEnv, emptyBroker]
  · have hside : (newOrderOf c8Data sampleEnv "BYBIT:FUTURE:BTCUSDT").side =
        "buy" := rfl
    have hsz : (newOrderOf c8Data sampleEnv "BYBIT:FUTURE:BTCUSDT").size =
        3 / 100000 := by
      norm_num [newOrderOf, orderSizeOf, jsQ, jsOrQ, c8Data]
    simp only [newPositionOf]
    rw [orderSizeWithSign, hside, hsz, if_neg (by decide)]
    norm_num [closeEps, abs_of_nonneg]

/-- Witness for the amended C8: a market buy of size 1 from the empty
state yields a position satisfying the invariant. -/
theorem position_book_invariant_amended_witness :
    positionOk (newPositionOf
      (newOrderOf c8wData sampleEnv "BYBIT:FUTURE:BTCUSDT") {}
      (jsQ c8wData.ltp getCurrentLTP) "PID") := by
  have hrun := position_book_invariant_amended
    [.place c8wData sampleEnv "BYBIT:FUTURE:BTCUSDT"] emptyBroker
    (by intro p hp; simp [emptyBroker] at hp)
    (by
      intro op hop
      simp at hop
      subst hop
      show closeEps ≤ orderSizeOf (c8wData.order.getD {}) c8wData
      norm_num [orderSizeOf, jsQ, jsOrQ, c8wData, closeEps])
  apply hrun
  have hcond : isMarketOrderOf (c8wData.order.getD {}) c8wData = true := rfl
  simp only [runBroker, List.foldl, stepBroker, addOrderToOrderBook]
  rw [if_pos hcond]
  simp only [createPositionAndTrade, applyFillToPositions, netFirst]
  simp [c8wData, sampleEnv, emptyBroker]

end GoDemo
